import Mathlib

/-!
Verification development for the DynamoDB helper module
(src/DynamoDBInterface/DynamoDB.py).

The embedding mirrors the Python source closely:
- dynamically typed row values become the inductive `Val`
  (null / bool / int / string / list; nested maps and floats are not
  exercised by any statement below and are omitted from the value type);
- Python exceptions become the `Err` type and fallible code returns
  `Except Err _`;
- a row (a Python dict with string keys) is an insertion-ordered
  association list, which matches CPython dict ordering semantics;
- the mutable heap objects that matter to the observable behaviour (the
  "Items" lists aliased by `DatabaseQueryResult._items`) live in an
  explicit `Store`, while `_data` (always a `copy.deepcopy` of the
  payload) is a pure snapshot value.
-/

set_option maxRecDepth 4000
set_option autoImplicit false

namespace DynamoDB

/-- Python exception kinds raised by the embedded operations. -/
inductive Err where
  | typeError
  | indexError
  | keyError
  | runtimeError
  | attributeError
  deriving Repr, DecidableEq

/-- Dynamically typed Python values appearing in result rows. -/
inductive Val where
  | vnull
  | vbool (b : Bool)
  | vint (n : Int)
  | vstr (s : String)
  | vlist (l : List Val)

mutual

/-- Structural equality decision for `Val` (the nested `List Val` makes
automatic deriving unavailable). -/
def valDecEq : (a b : Val) → Decidable (a = b)
  | .vnull, .vnull => isTrue rfl
  | .vnull, .vbool _ => isFalse (fun h => Val.noConfusion h)
  | .vnull, .vint _ => isFalse (fun h => Val.noConfusion h)
  | .vnull, .vstr _ => isFalse (fun h => Val.noConfusion h)
  | .vnull, .vlist _ => isFalse (fun h => Val.noConfusion h)
  | .vbool _, .vnull => isFalse (fun h => Val.noConfusion h)
  | .vbool a, .vbool b =>
    if h : a = b then isTrue (congrArg Val.vbool h)
    else isFalse (fun hh => h (Val.vbool.inj hh))
  | .vbool _, .vint _ => isFalse (fun h => Val.noConfusion h)
  | .vbool _, .vstr _ => isFalse (fun h => Val.noConfusion h)
  | .vbool _, .vlist _ => isFalse (fun h => Val.noConfusion h)
  | .vint _, .vnull => isFalse (fun h => Val.noConfusion h)
  | .vint _, .vbool _ => isFalse (fun h => Val.noConfusion h)
  | .vint a, .vint b =>
    if h : a = b then isTrue (congrArg Val.vint h)
    else isFalse (fun hh => h (Val.vint.inj hh))
  | .vint _, .vstr _ => isFalse (fun h => Val.noConfusion h)
  | .vint _, .vlist _ => isFalse (fun h => Val.noConfusion h)
  | .vstr _, .vnull => isFalse (fun h => Val.noConfusion h)
  | .vstr _, .vbool _ => isFalse (fun h => Val.noConfusion h)
  | .vstr _, .vint _ => isFalse (fun h => Val.noConfusion h)
  | .vstr a, .vstr b =>
    if h : a = b then isTrue (congrArg Val.vstr h)
    else isFalse (fun hh => h (Val.vstr.inj hh))
  | .vstr _, .vlist _ => isFalse (fun h => Val.noConfusion h)
  | .vlist _, .vnull => isFalse (fun h => Val.noConfusion h)
  | .vlist _, .vbool _ => isFalse (fun h => Val.noConfusion h)
  | .vlist _, .vint _ => isFalse (fun h => Val.noConfusion h)
  | .vlist _, .vstr _ => isFalse (fun h => Val.noConfusion h)
  | .vlist a, .vlist b =>
    match valDecEqList a b with
    | isTrue h => isTrue (congrArg Val.vlist h)
    | isFalse h => isFalse (fun hh => h (Val.vlist.inj hh))

/-- Structural equality decision for lists of `Val`. -/
def valDecEqList : (a b : List Val) → Decidable (a = b)
  | [], [] => isTrue rfl
  | [], _ :: _ => isFalse (fun h => List.noConfusion h)
  | _ :: _, [] => isFalse (fun h => List.noConfusion h)
  | x :: xs, y :: ys =>
    match valDecEq x y, valDecEqList xs ys with
    | isTrue h1, isTrue h2 => isTrue (by rw [h1, h2])
    | isFalse h1, _ => isFalse (fun hh => h1 (List.cons.inj hh).1)
    | _, isFalse h2 => isFalse (fun hh => h2 (List.cons.inj hh).2)

end

instance : DecidableEq Val := valDecEq

mutual

/-- Python `==` on the embedded values. It is total (Python equality never
raises); `True == 1` and `False == 0` hold in Python, lists compare
pointwise, and values of unrelated types compare unequal. -/
def pyEq : Val → Val → Bool
  | .vnull, .vnull => true
  | .vbool a, .vbool b => a == b
  | .vbool a, .vint n => (if a then (1 : Int) else 0) == n
  | .vint n, .vbool b => n == (if b then (1 : Int) else 0)
  | .vint a, .vint b => a == b
  | .vstr a, .vstr b => a == b
  | .vlist a, .vlist b => pyEqList a b
  | _, _ => false

/-- Pointwise Python equality of two lists (used by `pyEq` on `vlist`). -/
def pyEqList : List Val → List Val → Bool
  | [], [] => true
  | x :: xs, y :: ys => pyEq x y && pyEqList xs ys
  | _, _ => false

end

mutual

/-- Python ordering comparison (`<`, `>`, `<=`, `>=`). Ints and bools are
comparable (bools count as 0/1), strings compare lexicographically,
lists compare lexicographically element by element; any other
combination raises `TypeError`, as CPython does. -/
def pyCmp : Val → Val → Except Err Ordering
  | .vint a, .vint b => .ok (compare a b)
  | .vint a, .vbool b => .ok (compare a (if b then 1 else 0))
  | .vbool a, .vint b => .ok (compare (if a then (1 : Int) else 0) b)
  | .vbool a, .vbool b => .ok (compare (if a then (1 : Int) else 0) (if b then 1 else 0))
  | .vstr a, .vstr b => .ok (compare a b)
  | .vlist a, .vlist b => pyCmpList a b
  | _, _ => .error .typeError

/-- Lexicographic Python comparison of lists. -/
def pyCmpList : List Val → List Val → Except Err Ordering
  | [], [] => .ok .eq
  | [], _ :: _ => .ok .lt
  | _ :: _, [] => .ok .gt
  | x :: xs, y :: ys =>
    match pyCmp x y with
    | .error e => .error e
    | .ok .eq => pyCmpList xs ys
    | .ok o => .ok o

end

/-- Python `str.lower()`; on a non-string receiver the attribute lookup
raises `AttributeError`. -/
def pyLowerStr : Val → Except Err String
  | .vstr s => .ok s.toLower
  | _ => .error .attributeError

/-- Whether the first character list occurs at the head of the second. -/
def subAt : List Char → List Char → Bool
  | [], _ => true
  | _ :: _, [] => false
  | a :: ta, b :: sb => a == b && subAt ta sb

/-- Whether the first character list occurs contiguously anywhere in the
second (Python substring containment). -/
def hasSub : List Char → List Char → Bool
  | t, [] => subAt t []
  | t, b :: s2 => subAt t (b :: s2) || hasSub t s2

/-- Python `y in x` (the membership test used by the CONTAINS predicate,
with `x` the container). Strings test substring containment of a string
operand, lists test membership under Python equality, and any other
container raises `TypeError`. -/
def pyContains (x y : Val) : Except Err Bool :=
  match x with
  | .vstr s =>
    match y with
    | .vstr t => .ok (hasSub t.toList s.toList)
    | _ => .error .typeError
  | .vlist l => .ok (l.any (fun e => pyEq e y))
  | _ => .error .typeError

/-- The closed predicate enum of the source (`class FilterType(enum.Enum)`),
one constructor per member. -/
inductive FilterType where
  | EQUALS
  | EQUALS_NON_CS
  | NOT_EQUAL
  | CONTAINS
  | NOT_CONTAIN
  | GREATER_THAN
  | GREATER_THAN_EQUAL
  | LESS_THAN
  | LESS_THAN_EQUAL
  | IN
  | NOT_IN
  deriving Repr, DecidableEq

/-- The comparison lambda carried by each `FilterType` member, applied as
`self.filter_type.value(d[self.col], self.val)` in `Filter.apply`.
Each case is the corresponding Python lambda from the enum. -/
def FilterType.value : FilterType → Val → Val → Except Err Bool
  | .EQUALS, x, y => .ok (pyEq x y)
  | .EQUALS_NON_CS, x, y => do
    let a ← pyLowerStr x
    let b ← pyLowerStr y
    pure (a == b)
  | .NOT_EQUAL, x, y => .ok (!pyEq x y)
  | .CONTAINS, x, y => pyContains x y
  | .NOT_CONTAIN, x, y => do
    let b ← pyContains x y
    pure (!b)
  | .GREATER_THAN, x, y => do
    let o ← pyCmp x y
    pure (o == .gt)
  | .GREATER_THAN_EQUAL, x, y => do
    let o ← pyCmp x y
    pure (!(o == .lt))
  | .LESS_THAN, x, y => do
    let o ← pyCmp x y
    pure (o == .lt)
  | .LESS_THAN_EQUAL, x, y => do
    let o ← pyCmp x y
    pure (!(o == .gt))
  | .IN, x, y => pyContains y x
  | .NOT_IN, x, y => do
    let b ← pyContains y x
    pure (!b)

/-- A row: a Python dict with string keys, as an insertion-ordered
association list (CPython dicts preserve insertion order). -/
abbrev Row := List (String × Val)

/-- Python `key in row`. -/
def rhas (d : Row) (k : String) : Bool :=
  d.any (fun kv => kv.1 == k)

/-- Python `row.get(key)` as an option: the first (and in a dict, only)
binding of the key. -/
def rget? (d : Row) (k : String) : Option Val :=
  d.lookup k

/-- Python `row[key]` with a null default; only ever used under an
`rhas` guard, mirroring the `key in row` checks of the source. -/
def rgetD (d : Row) (k : String) : Val :=
  (rget? d k).getD .vnull

/-- Python `row[key] = value`: replace the binding in place if the key is
present (keeping its position, as CPython dicts do), else append. -/
def rset : Row → String → Val → Row
  | [], k, v => [(k, v)]
  | (k1, v1) :: rest, k, v =>
    if k1 == k then (k, v) :: rest else (k1, v1) :: rset rest k v

/-- Python `del row[key]` (on dicts the key occurs at most once). -/
def rdel : Row → String → Row
  | [], _ => []
  | (k1, v1) :: rest, k =>
    if k1 == k then rest else (k1, v1) :: rdel rest k

/-- Python `row.update(other)`: assign each binding of `other` in order. -/
def rupdate (d other : Row) : Row :=
  other.foldl (fun acc kv => rset acc kv.1 kv.2) d

/-- The `Filter` class: a column, a comparison literal, a predicate and
the missing-field policy flag. -/
structure Filter where
  col : String
  val : Val
  filter_type : FilterType
  includes_empty : Bool
  deriving DecidableEq

/-- `Filter.apply`: the two list comprehensions of the source, evaluated
left to right; a predicate that raises aborts the whole application with
that exception, exactly as a Python comprehension would. -/
def Filter.apply (f : Filter) : List Row → Except Err (List Row)
  | [] => .ok []
  | d :: ds =>
    if f.includes_empty then
      -- [d for d in data if self.col not in d or self.filter_type.value(d[self.col], self.val)]
      if rhas d f.col then do
        let b ← f.filter_type.value (rgetD d f.col) f.val
        let rest ← f.apply ds
        pure (if b then d :: rest else rest)
      else do
        let rest ← f.apply ds
        pure (d :: rest)
    else
      -- [d for d in data if self.col in d and self.filter_type.value(d[self.col], self.val)]
      if rhas d f.col then do
        let b ← f.filter_type.value (rgetD d f.col) f.val
        let rest ← f.apply ds
        pure (if b then d :: rest else rest)
      else
        f.apply ds

/-- Equality of `Except` results is decidable when both components are. -/
instance {ε α : Type} [DecidableEq ε] [DecidableEq α] : DecidableEq (Except ε α)
  | .ok a, .ok b =>
    if h : a = b then isTrue (congrArg Except.ok h)
    else isFalse (fun hh => h (Except.ok.inj hh))
  | .ok _, .error _ => isFalse (fun h => Except.noConfusion h)
  | .error _, .ok _ => isFalse (fun h => Except.noConfusion h)
  | .error a, .error b =>
    if h : a = b then isTrue (congrArg Except.error h)
    else isFalse (fun hh => h (Except.error.inj hh))

/-! ## The store of mutable "Items" lists

`DatabaseQueryResult.__init__` keeps `self._items = data["Items"]` — a
reference to the very list object inside the caller's payload dict —
while `self._data = copy.deepcopy(data)` is a private snapshot.  To make
that aliasing observable, the row lists live in a `Store` (a heap of
list objects addressed by index) and a `DatabaseQueryResult` holds an
optional reference into it.  Every derivation in the source builds a
brand-new list (always behind a `copy.deepcopy` or a fresh comprehension)
before mutating it, so derivations are modelled as pure computations that
allocate their result list at the end; the only in-place write to an
existing list object is `__setitem__`. -/

/-- The heap of row-list objects; a reference is an index. -/
abbrev Store := List (List Row)

/-- Dereference a list object (total, with `[]` for a dangling reference;
well-formedness hypotheses in the theorems rule dangling references out). -/
def readList (s : Store) (ref : Nat) : List Row :=
  (s[ref]?).getD []

/-- The pure snapshot a `copy.deepcopy` of a payload dict produces:
the "Items" entry (if present) and the remaining entries. -/
structure PayloadV where
  items? : Option (List Row)
  rest : List (String × Val)
  deriving DecidableEq

/-- A payload dict object as passed to the constructor: its "Items" entry
is a live list object in the store, its other entries are plain values. -/
structure PayloadObj where
  itemsRef : Option Nat
  rest : List (String × Val)
  deriving DecidableEq

/-- A `copy.deepcopy` of a payload object: resolves the "Items" list
through the store into a pure snapshot. -/
def snapshot (s : Store) (p : PayloadObj) : PayloadV :=
  ⟨p.itemsRef.map (fun ref => readList s ref), p.rest⟩

/-- The `DatabaseQueryResult` object state: `data` models `self._data`
(a deep-copied snapshot) and `items` models `self._items` (a reference
to the "Items" list object of the payload the constructor received, or
`none` when the payload had no "Items" key). -/
structure DatabaseQueryResult where
  data : PayloadV
  items : Option Nat
  deriving DecidableEq

namespace DatabaseQueryResult

/-- The constructor: `self._data = copy.deepcopy(data)` and
`self._items = data["Items"] if "Items" in data else None`. -/
def init (s : Store) (p : PayloadObj) : DatabaseQueryResult :=
  ⟨snapshot s p, p.itemsRef⟩

/-- `dump()`: returns `self._data`. -/
def dump (r : DatabaseQueryResult) : PayloadV :=
  r.data

/-- `all()`: `self._items if self._items is not None else []`, reading the
live list object. -/
def allRows (s : Store) (r : DatabaseQueryResult) : List Row :=
  match r.items with
  | none => []
  | some ref => readList s ref

/-- `length()` = `len(self._items)`; `len(None)` raises `TypeError`. -/
def length (s : Store) (r : DatabaseQueryResult) : Except Err Nat :=
  match r.items with
  | none => .error .typeError
  | some ref => .ok (readList s ref).length

/-- `columns()`: the union of the key sets of all rows.  The source
returns a Python `set`; we enumerate it in first-occurrence order — every
use (membership tests, `sorted`, per-row lookups) is insensitive to the
enumeration order. -/
def columnsList (rows : List Row) : List String :=
  (rows.flatMap (fun d => d.map (fun kv => kv.1))).dedup

/-- Every derivation ends with `DatabaseQueryResult({"Items": data}, ...)`:
the fresh row list is allocated as a new list object, the constructor
snapshots the one-entry payload around it and aliases the fresh list. -/
def mkResult (s : Store) (rows : List Row) : Store × DatabaseQueryResult :=
  (s ++ [rows], ⟨⟨some rows, []⟩, some s.length⟩)

/-- `strip(keys, key)`: raises `KeyError` when neither argument is given,
otherwise deep-copies `all()` and deletes the named keys from every row
of the copy. -/
def strip (s : Store) (r : DatabaseQueryResult) (keys : Option (List String))
    (key : Option String) : Store × Except Err DatabaseQueryResult :=
  match keys, key with
  | none, none => (s, .error .keyError)
  | _, _ =>
    let ks := match keys with
      | some ks => ks
      | none => [key.getD ("")]
    let out := (allRows s r).map (fun elem =>
      ks.foldl (fun e x => if rhas e x then rdel e x else e) elem)
    let (s2, res) := mkResult s out
    (s2, .ok res)

/-- `select_columns(columns)`: deep-copies `all()` and deletes, from every
row, each observed column not in the allow-list. -/
def select_columns (s : Store) (r : DatabaseQueryResult) (columns : List String) :
    Store × Except Err DatabaseQueryResult :=
  let cols := columnsList (allRows s r)
  let out := (allRows s r).map (fun elem =>
    cols.foldl (fun e x =>
      if rhas e x && !columns.contains x then rdel e x else e) elem)
  let (s2, res) := mkResult s out
  (s2, .ok res)

/-- `apply(function, *args, new_col)`: raises `RuntimeError` without a
source column; otherwise, for every deep-copied row containing all the
source columns, stores `function(*values)` under the target column
(defaulting to the first source column).  The applied function is
modelled as a total Lean function; rows missing a source column are left
untouched (the source only emits a warning for them). -/
def applyFn (s : Store) (r : DatabaseQueryResult) (function : List Val → Val)
    (args : List String) (new_col : Option String) :
    Store × Except Err DatabaseQueryResult :=
  match args with
  | [] => (s, .error .runtimeError)
  | a0 :: _ =>
    let target := new_col.getD a0
    let out := (allRows s r).map (fun elem =>
      let args_data := args.filterMap (fun col => rget? elem col)
      if args_data.length = args.length then rset elem target (function args_data)
      else elem)
    let (s2, res) := mkResult s out
    (s2, .ok res)

/-- `fill_empty(with_data)`: builds fresh rows over the full observed
column set, taking the present value or the fill value. -/
def fill_empty (s : Store) (r : DatabaseQueryResult) (with_data : Val) :
    Store × Except Err DatabaseQueryResult :=
  let cols := columnsList (allRows s r)
  let out := (allRows s r).map (fun d =>
    cols.map (fun k => (k, match rget? d k with
      | some v => v
      | none => with_data)))
  let (s2, res) := mkResult s out
  (s2, .ok res)

/-- A sort key: `sort` accepts a single column name or a list of names.
An empty list of names is not modelled (the source would then emit the
payload's key strings themselves as rows, which no claim concerns), so
the list form carries an explicit head. -/
inductive SortKey where
  | single (col : String)
  | multi (col : String) (cols : List String)
  deriving DecidableEq

/-- The keys of the payload dict `self._data`, in insertion order:
"Items" (when present) followed by the other entries.  `sort` iterates
over these because it sorts the deep-copied payload dict itself. -/
def payloadKeys (d : PayloadV) : List String :=
  (match d.items? with
   | some _ => [("Items")]
   | none => []) ++ d.rest.map (fun kv => kv.1)

/-- Indexing a Python `str` with a string key — what the sort key function
`lambda x: x[using]` does to each dict key — raises `TypeError`. -/
def strGetItem (_element _key : String) : Except Err Val :=
  .error .typeError

/-- The decoration pass of `sorted(data, key=...)`: the key function is
applied to every element — here the payload dict's keys — before any
comparison happens. -/
def sortKeyed (d : PayloadV) : SortKey → Except Err (List Val)
  | .single col => (payloadKeys d).mapM (fun kstr => strGetItem kstr col)
  | .multi col cols => (payloadKeys d).mapM (fun kstr => do
      let v ← strGetItem kstr col
      let _ ← cols.mapM (fun c => strGetItem kstr c)
      pure v)

/-- `sort(using)`: the source sorts `copy.deepcopy(self._data)` — the
payload dict, not the row list.  `sorted` over a dict iterates its keys
(strings) and applies the key function to each before comparing, so any
payload with at least one key raises `TypeError`; only an empty payload
dict reaches the constructor (with an empty row list). -/
def sort (s : Store) (r : DatabaseQueryResult) (using_ : SortKey) :
    Store × Except Err DatabaseQueryResult :=
  match sortKeyed r.data using_ with
  | .error e => (s, .error e)
  | .ok _ =>
    -- only reachable when the payload dict has no keys: sorted({}) == []
    let (s2, res) := mkResult s []
    (s2, .ok res)

/-- `unique(key, ignores_empty)`: the comprehension
`[x[key] if key in x else None for x in self._items if key in x and ignores_empty]`
poured into a Python `set`.  Iterating `self._items` when it is `None`
raises `TypeError`.  The set is modelled as its insertion-order
deduplication; building it raises `TypeError` if any element is
unhashable (a list). -/
def pyHashable : Val → Bool
  | .vlist _ => false
  | _ => true

/-- Insertion-order deduplication under Python equality (a Python set
keeps the first of equal inserted elements): each element is skipped iff
it equals one already inserted. -/
def pySetDedupAux (seen : List Val) : List Val → List Val
  | [] => []
  | v :: vs =>
    if seen.any (fun w => pyEq v w) then pySetDedupAux seen vs
    else v :: pySetDedupAux (seen ++ [v]) vs

/-- Insertion-order deduplication under Python equality. -/
def pySetDedup (l : List Val) : List Val :=
  pySetDedupAux [] l

/-- Python `set(elems)`. -/
def pySet (elems : List Val) : Except Err (List Val) :=
  if elems.all pyHashable then .ok (pySetDedup elems) else .error .typeError

/-- `unique` as in the source; note that the guard of the comprehension is
`key in x and ignores_empty`, so with `ignores_empty=False` nothing at all
passes the guard (the `else None` branch of the element expression is
unreachable either way). -/
def unique (s : Store) (r : DatabaseQueryResult) (key : String)
    (ignores_empty : Bool) : Except Err (List Val) :=
  match r.items with
  | none => .error .typeError
  | some ref =>
    pySet ((readList s ref).filterMap (fun x =>
      if rhas x key && ignores_empty then
        some (if rhas x key then rgetD x key else .vnull)
      else none))

/-- `count_empty(key)`: rows missing the key (raises on `self._items = None`). -/
def count_empty (s : Store) (r : DatabaseQueryResult) (key : String) :
    Except Err Nat :=
  match r.items with
  | none => .error .typeError
  | some ref => .ok ((readList s ref).filter (fun x => !rhas x key)).length

/-- The row `get_where(key, value)` merges into a joined row:
`self.filter(key, value, FilterType.EQUALS).first()`.  The filter is
applied to the deep copy of `_with.dump()`, so a right side whose payload
has no "Items" list makes `first()` raise `TypeError` (`len(None)`);
otherwise `first()` returns the first match or the empty row. -/
def getWhereRow (withData : PayloadV) (key : String) (value : Val) :
    Except Err Row :=
  match withData.items? with
  | none => .error .typeError
  | some rows =>
    match Filter.apply ⟨key, value, .EQUALS, false⟩ rows with
    | .error e => .error e
    | .ok filtered => .ok (filtered.headD [])

/-- The merge loop of `join`: for each (deep-copied) row in order, a row
containing `using` is merged with its `get_where` match from the right
side; a row lacking `using` passes through; a raising lookup aborts the
loop with its exception, as the Python `for` would. -/
def joinLoop (wd : PayloadV) (using_ : String) : List Row → Except Err (List Row)
  | [] => .ok []
  | item :: rest =>
    if rhas item using_ then
      match getWhereRow wd using_ (rgetD item using_) with
      | .error e => .error e
      | .ok m =>
        match joinLoop wd using_ rest with
        | .error e => .error e
        | .ok out => .ok (rupdate item m :: out)
    else
      match joinLoop wd using_ rest with
      | .error e => .error e
      | .ok out => .ok (item :: out)

/-- `join(_with, using)`: a no-op returning `self` itself when `using` is
not an observed column; otherwise deep-copies `self._items` and merges
into every row containing `using` the `get_where` match from `_with`
(after the non-unique-key warning check, which touches `_with._items` and
raises `TypeError` when that is `None`). -/
def join (s : Store) (r _with : DatabaseQueryResult) (using_ : String) :
    Store × Except Err DatabaseQueryResult :=
  if !(columnsList (allRows s r)).contains using_ then (s, .ok r)
  else
    -- the warning check: `_with.num_unique(using) + _with.count_empty(using)`
    match _with.items with
    | none => (s, .error .typeError)
    | some wref =>
      match pySet ((readList s wref).filterMap (fun x =>
          if rhas x using_ then some (rgetD x using_) else none)) with
      | .error e => (s, .error e)
      | .ok _ =>
        match joinLoop _with.data using_ (allRows s r) with
        | .error e => (s, .error e)
        | .ok out =>
          let (s2, res) := mkResult s out
          (s2, .ok res)

/-- `__getitem__` with a string key. -/
def getItemStr (s : Store) (r : DatabaseQueryResult) (item : String) :
    Except Err Val :=
  match length s r with
  | .error e => .error e
  | .ok n =>
    if n = 1 then
      match rget? ((allRows s r).headD []) item with
      | some v => .ok v
      | none => .error .keyError
    else if n ≠ 0 then .error .typeError
    else .error .indexError

/-- `__setitem__` with a string key: writes through `self._items` into the
shared list object. -/
def setItemStr (s : Store) (r : DatabaseQueryResult) (key : String) (value : Val) :
    Except Err Store :=
  match r.items with
  | none => .error .typeError
  | some ref =>
    let rows := readList s ref
    if rows.length = 1 then
      .ok (s.set ref [rset (rows.headD []) key value])
    else if rows.length ≠ 0 then .error .typeError
    else .error .indexError

/-- What one full pass of the iteration protocol yields. -/
inductive IterResult where
  | pairs (l : List (String × Val))
  | rows (l : List Row)
  deriving DecidableEq

/-- `__iter__`/`__next__`: a single-row result iterates as the
`(fieldName, value)` pairs of that row (dict mode); otherwise the rows
themselves are yielded in order (list mode).  `__iter__` calls
`length()`, which raises on `self._items = None`. -/
def iterate (s : Store) (r : DatabaseQueryResult) : Except Err IterResult :=
  match length s r with
  | .error e => .error e
  | .ok n =>
    if n = 1 then .ok (.pairs ((allRows s r).headD []))
    else .ok (.rows (allRows s r))

end DatabaseQueryResult

/-! ## FilteredResponse -/

/-- A `FilteredResponse`: the inherited result-set state plus the filter
stack bookkeeping (`self._filter_stack`) and the reference to the origin
result (`self._original_data`). -/
structure FilteredResponse where
  dqr : DatabaseQueryResult
  filter_stack : List Filter
  original_data : DatabaseQueryResult
  deriving DecidableEq

namespace FilteredResponse

/-- `FilteredResponse.__init__`.  With `last_filtered` supplied
(incremental refine) only the newest filter runs over the deep copy of
`last_filtered.dump()`; without it (fresh chain) the whole stack replays
over the deep copy of `original_query_response.dump()`.  A payload with
no "Items" key passes through unfiltered with `_items = None`.  The
filtered list handed to the superclass constructor is a fresh list
object, allocated here. -/
def init (s : Store) (original : DatabaseQueryResult) (current : Filter)
    (stack : List Filter) (last : Option DatabaseQueryResult) :
    Store × Except Err FilteredResponse :=
  let newStack := stack ++ [current]
  match last with
  | some lf =>
    let data := lf.dump
    match data.items? with
    | none => (s, .ok ⟨⟨data, none⟩, newStack, original⟩)
    | some items =>
      match current.apply items with
      | .error e => (s, .error e)
      | .ok rows =>
        (s ++ [rows], .ok ⟨⟨⟨some rows, data.rest⟩, some s.length⟩, newStack, original⟩)
  | none =>
    let data := original.dump
    match data.items? with
    | none => (s, .ok ⟨⟨data, none⟩, newStack, original⟩)
    | some items =>
      match applyStack newStack items with
      | .error e => (s, .error e)
      | .ok rows =>
        (s ++ [rows], .ok ⟨⟨⟨some rows, data.rest⟩, some s.length⟩, newStack, original⟩)
where
  /-- `for f in self._filter_stack: data["Items"] = f.apply(data["Items"])`. -/
  applyStack : List Filter → List Row → Except Err (List Row)
    | [], rows => .ok rows
    | f :: fs, rows =>
      match f.apply rows with
      | .error e => .error e
      | .ok rows2 => applyStack fs rows2

/-- `FilteredResponse.filter_using(f)`: incremental refine of `self`. -/
def filter_using (s : Store) (fr : FilteredResponse) (f : Filter) :
    Store × Except Err FilteredResponse :=
  init s fr.original_data f fr.filter_stack (some fr.dqr)

end FilteredResponse

namespace DatabaseQueryResult

/-- `DatabaseQueryResult.filter_using(f)`: wraps `self` in a fresh
`FilteredResponse` with a one-element stack. -/
def filter_using (s : Store) (r : DatabaseQueryResult) (f : Filter) :
    Store × Except Err FilteredResponse :=
  FilteredResponse.init s r f [] none

/-- `filter(column, value, filter_type, includes_empty)`. -/
def filter (s : Store) (r : DatabaseQueryResult) (column : String) (value : Val)
    (filter_type : FilterType) (includes_empty : Bool) :
    Store × Except Err FilteredResponse :=
  filter_using s r ⟨column, value, filter_type, includes_empty⟩

end DatabaseQueryResult

/-! ## Filter chains: incremental vs fresh -/

/-- Chain `R.filter_using(f1).filter_using(f2)...`: the first call goes
through `DatabaseQueryResult.filter_using` (fresh, one-element stack),
every later call through `FilteredResponse.filter_using` (incremental). -/
def chainTail (s : Store) (fr : FilteredResponse) :
    List Filter → Store × Except Err FilteredResponse
  | [] => (s, .ok fr)
  | f :: fs =>
    match FilteredResponse.filter_using s fr f with
    | (s2, .error e) => (s2, .error e)
    | (s2, .ok fr2) => chainTail s2 fr2 fs

/-- The incremental path for a whole nonempty filter sequence. -/
def chain (s : Store) (r : DatabaseQueryResult) (f : Filter) (fs : List Filter) :
    Store × Except Err FilteredResponse :=
  match DatabaseQueryResult.filter_using s r f with
  | (s2, .error e) => (s2, .error e)
  | (s2, .ok fr) => chainTail s2 fr fs

/-- The fresh path: one `FilteredResponse` constructed with the whole
stack, replayed in order against the origin payload
(`FilteredResponse(R, f_n, [f_1..f_n-1], None)`). -/
def freshAux (s : Store) (r : DatabaseQueryResult) (acc : List Filter)
    (f : Filter) : List Filter → Store × Except Err FilteredResponse
  | [] => FilteredResponse.init s r f acc none
  | g :: gs => freshAux s r (acc ++ [f]) g gs

/-- The fresh path over the filter sequence `f :: fs`. -/
def fresh (s : Store) (r : DatabaseQueryResult) (f : Filter) (fs : List Filter) :
    Store × Except Err FilteredResponse :=
  freshAux s r [] f fs

/-- The observable row sequence of a construction outcome: the rows the
resulting response's `_items` reference designates in the final store
(`none` when the payload had no "Items" list). -/
def obsRows (p : Store × Except Err FilteredResponse) :
    Except Err (Option (List Row)) :=
  match p with
  | (_, .error e) => .error e
  | (s, .ok fr) => .ok (fr.dqr.items.map (fun ref => readList s ref))

/-! ## CSV export -/

namespace DatabaseQueryResult

mutual

/-- Python `str(value)` as written into a CSV cell by `csv.DictWriter`
(`None` becomes the empty cell; only null/int/string/bool cells are
exercised by the statements below, lists keep Python's bracketed
rendering shape). -/
def csvCell : Val → String
  | .vnull => ("")
  | .vbool b => if b then ("True") else ("False")
  | .vint n => toString n
  | .vstr str => str
  | .vlist l => ("[") ++ String.intercalate (", ") (csvCellList l) ++ ("]")

/-- Cell rendering of each element of a list value. -/
def csvCellList : List Val → List String
  | [] => []
  | v :: vs => csvCell v :: csvCellList vs

end

/-- Stable insertion of a string into an ascending list: the new element
goes after every element not greater than it. -/
def insertAsc (x : String) : List String → List String
  | [] => [x]
  | y :: ys => if x < y then x :: y :: ys else y :: insertAsc x ys

/-- Ascending stable sort of column names (`sorted` over strings,
lexicographic), as an insertion sort. -/
def sortStrings (l : List String) : List String :=
  l.foldl (fun acc x => insertAsc x acc) []

/-- `to_csv` materialized: the header row and the data rows that
`csv.DictWriter` writes.  `rdedup` stands for
`list(set(col_order_right) - set(col_order_left))`: CPython enumerates
that set in an unspecified (hash-dependent) order, so the enumeration is
a parameter, constrained in the theorems to be a valid enumeration of
the set.  Data rows come from `self.fill_empty().all()`; a header column
missing from a filled row is written as the `restval` empty string. -/
def to_csv (rows : List Row) (col_order_left : List String)
    (rdedup : List String) : List String × List (List String) :=
  let norm_col := sortStrings ((columnsList rows).filter
    (fun c => !rdedup.contains c && !col_order_left.contains c))
  let columns := col_order_left ++ norm_col ++ rdedup
  let cols := columnsList rows
  let filled := rows.map (fun d =>
    cols.map (fun k => (k, match rget? d k with
      | some v => v
      | none => Val.vnull)))
  (columns, filled.map (fun d =>
    columns.map (fun c => match rget? d c with
      | some v => csvCell v
      | none => (""))))

/-- The property that `rdedup` enumerates exactly the Python set
`set(right) - set(left)`, each element once. -/
def IsSetDiffEnum (rdedup right left : List String) : Prop :=
  rdedup.Nodup ∧ ∀ c, c ∈ rdedup ↔ (c ∈ right ∧ c ∉ left)

instance (rdedup right left : List String) :
    Decidable (IsSetDiffEnum rdedup right left) := by
  unfold IsSetDiffEnum
  have : Decidable (∀ c, c ∈ rdedup ↔ (c ∈ right ∧ c ∉ left)) := by
    refine decidable_of_iff
      (∀ c ∈ rdedup ++ right, c ∈ rdedup ↔ (c ∈ right ∧ c ∉ left)) ?_
    constructor
    · intro h c
      by_cases hc : c ∈ rdedup ++ right
      · exact h c hc
      · simp only [List.mem_append, not_or] at hc
        constructor
        · intro hr; exact absurd hr hc.1
        · intro hr; exact absurd hr.1 hc.2
    · intro h c _; exact h c
  exact instDecidableAnd

end DatabaseQueryResult

/-! ## Proof-support definitions -/

/-- How one incremental filter construction evolves the `_data` payload
snapshot: a payload with no "Items" key passes through, otherwise the
newest filter transforms the "Items" rows. -/
def stepData (f : Filter) (d : PayloadV) : Except Err PayloadV :=
  match d.items? with
  | none => .ok d
  | some items =>
    match f.apply items with
    | .error e => .error e
    | .ok rows => .ok ⟨some rows, d.rest⟩

/-- Iterated payload evolution over a filter sequence. -/
def foldData : List Filter → PayloadV → Except Err PayloadV
  | [], d => .ok d
  | f :: fs, d =>
    match stepData f d with
    | .error e => .error e
    | .ok d2 => foldData fs d2

/-- The "Items" component of an evolved payload, with errors propagated. -/
def dataItems : Except Err PayloadV → Except Err (Option (List Row))
  | .error e => .error e
  | .ok d => .ok d.items?

/-- Consistency of a response with a store: the live list object behind
`_items` holds exactly the rows the `_data` snapshot records. Holds for
every response the constructors of this file build. -/
def Good (s : Store) (fr : FilteredResponse) : Prop :=
  match fr.dqr.items, fr.dqr.data.items? with
  | none, none => True
  | some ref, some items => s[ref]? = some items
  | _, _ => False

/-- Boolean well-formedness of a result's `_items` reference in a store. -/
def wfRefB (s : Store) (r : DatabaseQueryResult) : Bool :=
  match r.items with
  | none => true
  | some ref => ref < s.length

/-- The row sequence an `_items` reference designates in a store (`none`
for the `_items = None` state). -/
def rowsSeen (s : Store) (o : Option Nat) : Option (List Row) :=
  o.map (readList s)

/-- The observable row sequence of a derivation outcome on plain
result sets (the analogue of `obsRows` for `DatabaseQueryResult`). -/
def resultRows (p : Store × Except Err DatabaseQueryResult) :
    Except Err (Option (List Row)) :=
  match p with
  | (_, .error e) => .error e
  | (s, .ok res) => .ok (res.items.map (fun ref => readList s ref))

/-! ## Helper lemmas -/

theorem rget?_rset_self (d : Row) (k : String) (v : Val) :
    rget? (rset d k v) k = some v := by
  induction d with
  | nil => simp [rget?, rset, List.lookup]
  | cons kv rest ih =>
    obtain ⟨k1, v1⟩ := kv
    by_cases h : k1 = k
    · simp [rget?, rset, List.lookup, h]
    · have hb : (k1 == k) = false := by simpa using h
      simp only [rset, hb, if_false]
      simpa [rget?, List.lookup, BEq.symm_false hb] using ih

theorem readList_append_of_lt {s : Store} (t : Store) {ref : Nat}
    (h : ref < s.length) : readList (s ++ t) ref = readList s ref := by
  simp [readList, List.getElem?_append_left h]

theorem rowsSeen_append {s : Store} (t : Store) {o : Option Nat}
    (h : ∀ ref, o = some ref → ref < s.length) :
    rowsSeen (s ++ t) o = rowsSeen s o := by
  cases o with
  | none => rfl
  | some ref => simp [rowsSeen, readList_append_of_lt t (h ref rfl)]

/-- Characterization of `Filter.apply` with `includes_empty = false` on a
successful run: it keeps exactly the rows that have the column and whose
predicate application returns true. -/
theorem apply_ok_keep_false (col : String) (lit : Val) (ft : FilterType) :
    ∀ (rows out : List Row),
      Filter.apply ⟨col, lit, ft, false⟩ rows = .ok out →
      out = rows.filter
        (fun d => rhas d col && decide (ft.value (rgetD d col) lit = .ok true)) := by
  intro rows
  induction rows with
  | nil =>
    intro out h
    simp only [Filter.apply] at h
    cases h
    rfl
  | cons d ds ih =>
    intro out h
    simp only [Filter.apply, Bool.false_eq_true, if_false] at h
    by_cases hc : rhas d col
    · rw [if_pos hc] at h
      cases hv : ft.value (rgetD d col) lit with
      | error e => simp [hv, Bind.bind, Except.bind] at h
      | ok b =>
        rw [hv] at h
        cases hds : Filter.apply ⟨col, lit, ft, false⟩ ds with
        | error e => simp [hds, Bind.bind, Except.bind] at h
        | ok rest =>
          simp only [hds, Bind.bind, Except.bind, pure, Except.pure] at h
          cases h
          cases b with
          | true => simp [List.filter_cons, hc, hv, ih rest hds]
          | false => simp [List.filter_cons, hc, hv, ih rest hds]
    · rw [if_neg hc] at h
      have hcf : rhas d col = false := by simpa using hc
      simp [List.filter_cons, hcf, ih out h]

/-- Characterization of `Filter.apply` with `includes_empty = true` on a
successful run: it keeps exactly the rows that lack the column or whose
predicate application returns true. -/
theorem apply_ok_keep_true (col : String) (lit : Val) (ft : FilterType) :
    ∀ (rows out : List Row),
      Filter.apply ⟨col, lit, ft, true⟩ rows = .ok out →
      out = rows.filter
        (fun d => !rhas d col || decide (ft.value (rgetD d col) lit = .ok true)) := by
  intro rows
  induction rows with
  | nil =>
    intro out h
    simp only [Filter.apply] at h
    cases h
    rfl
  | cons d ds ih =>
    intro out h
    simp only [Filter.apply, if_true] at h
    by_cases hc : rhas d col
    · rw [if_pos hc] at h
      cases hv : ft.value (rgetD d col) lit with
      | error e => simp [hv, Bind.bind, Except.bind] at h
      | ok b =>
        rw [hv] at h
        cases hds : Filter.apply ⟨col, lit, ft, true⟩ ds with
        | error e => simp [hds, Bind.bind, Except.bind] at h
        | ok rest =>
          simp only [hds, Bind.bind, Except.bind, pure, Except.pure] at h
          cases h
          cases b with
          | true => simp [List.filter_cons, hc, hv, ih rest hds]
          | false => simp [List.filter_cons, hc, hv, ih rest hds]
    · rw [if_neg hc] at h
      cases hds : Filter.apply ⟨col, lit, ft, true⟩ ds with
      | error e => simp [hds, Bind.bind, Except.bind] at h
      | ok rest =>
        simp only [hds, Bind.bind, Except.bind, pure, Except.pure] at h
        cases h
        have hcf : rhas d col = false := by simpa using hc
        simp [List.filter_cons, hcf, ih rest hds]

/-- With `includes_empty = true`, rows that all lack the column pass
through without the predicate ever being evaluated. -/
theorem apply_all_missing (col : String) (lit : Val) (ft : FilterType) :
    ∀ rows : List Row, (∀ d ∈ rows, rhas d col = false) →
      Filter.apply ⟨col, lit, ft, true⟩ rows = .ok rows := by
  intro rows
  induction rows with
  | nil => intro _; rfl
  | cons d ds ih =>
    intro h
    have hd : rhas d col = false := h d (List.mem_cons_self d ds)
    have hds := ih (fun x hx => h x (List.mem_cons_of_mem d hx))
    simp [Filter.apply, hd, hds, Bind.bind, Except.bind, pure, Except.pure]

/-! ## Payload-evolution lemmas for the filter paths -/

theorem foldData_none (fs : List Filter) (rest : List (String × Val)) :
    foldData fs ⟨none, rest⟩ = .ok ⟨none, rest⟩ := by
  induction fs with
  | nil => rfl
  | cons f fs ih => simpa [foldData, stepData] using ih

theorem foldData_some (fs : List Filter) (items : List Row)
    (rest : List (String × Val)) :
    foldData fs ⟨some items, rest⟩
      = match FilteredResponse.init.applyStack fs items with
        | .error e => .error e
        | .ok rows => .ok ⟨some rows, rest⟩ := by
  induction fs generalizing items with
  | nil => rfl
  | cons f fs ih =>
    simp only [foldData, stepData, FilteredResponse.init.applyStack]
    cases h : f.apply items with
    | error e => simp
    | ok rows => simpa using ih rows

theorem good_obs (s : Store) (fr : FilteredResponse) (h : Good s fr) :
    obsRows (s, .ok fr) = .ok fr.dqr.data.items? := by
  have hobs : obsRows (s, .ok fr)
      = .ok (fr.dqr.items.map (fun ref => readList s ref)) := rfl
  rw [hobs]
  unfold Good at h
  cases hi : fr.dqr.items with
  | none =>
    cases hd : fr.dqr.data.items? with
    | none => rfl
    | some items => rw [hi, hd] at h; exact h.elim
  | some ref =>
    cases hd : fr.dqr.data.items? with
    | none => rw [hi, hd] at h; exact h.elim
    | some items =>
      rw [hi, hd] at h
      have h2 : s[ref]? = some items := h
      simp [readList, h2]

/-- Characterization of the incremental `FilteredResponse` construction
(`last_filtered` supplied): its `_data` payload evolves by `stepData` on
the last response's `_data`, errors propagate, and on success the fresh
response is consistent with the extended store. -/
theorem init_incr_spec (s : Store) (orig : DatabaseQueryResult) (f : Filter)
    (stack : List Filter) (lf : DatabaseQueryResult) :
    (∀ e, stepData f lf.data = .error e →
      FilteredResponse.init s orig f stack (some lf) = (s, .error e))
    ∧ (∀ d2, stepData f lf.data = .ok d2 →
      ∃ s2 fr2, FilteredResponse.init s orig f stack (some lf) = (s2, .ok fr2)
        ∧ fr2.dqr.data = d2 ∧ Good s2 fr2) := by
  cases hd : lf.data.items? with
  | none =>
    constructor
    · intro e he
      exact absurd he (by simp [stepData, hd])
    · intro d2 he
      simp only [stepData, hd] at he
      refine ⟨s, ⟨⟨lf.data, none⟩, stack ++ [f], orig⟩, ?_, ?_, ?_⟩
      · simp [FilteredResponse.init, DatabaseQueryResult.dump, hd]
      · simpa using he
      · simp [Good, hd]
  | some items =>
    cases ha : f.apply items with
    | error e =>
      constructor
      · intro e2 he
        simp only [stepData, hd, ha] at he
        cases he
        simp [FilteredResponse.init, DatabaseQueryResult.dump, hd, ha]
      · intro d2 he
        exact absurd he (by simp [stepData, hd, ha])
    | ok rows =>
      constructor
      · intro e he
        exact absurd he (by simp [stepData, hd, ha])
      · intro d2 he
        simp only [stepData, hd, ha] at he
        refine ⟨s ++ [rows],
          ⟨⟨⟨some rows, lf.data.rest⟩, some s.length⟩, stack ++ [f], orig⟩, ?_, ?_, ?_⟩
        · simp [FilteredResponse.init, DatabaseQueryResult.dump, hd, ha]
        · simpa using he
        · simp [Good, List.getElem?_concat_length]

/-- Characterization of the fresh `FilteredResponse` construction
(`last_filtered = None`): its `_data` payload is the whole-stack fold over
the origin's `_data`. -/
theorem init_fresh_spec (s : Store) (orig : DatabaseQueryResult) (f : Filter)
    (stack : List Filter) :
    (∀ e, foldData (stack ++ [f]) orig.data = .error e →
      FilteredResponse.init s orig f stack none = (s, .error e))
    ∧ (∀ d2, foldData (stack ++ [f]) orig.data = .ok d2 →
      ∃ s2 fr2, FilteredResponse.init s orig f stack none = (s2, .ok fr2)
        ∧ fr2.dqr.data = d2 ∧ Good s2 fr2) := by
  cases hd : orig.data.items? with
  | none =>
    have hfold : foldData (stack ++ [f]) orig.data = .ok orig.data := by
      have : orig.data = ⟨none, orig.data.rest⟩ := by
        cases horig : orig.data with
        | mk i r => rw [horig] at hd; simp at hd; rw [hd]
      rw [this]
      exact foldData_none _ _
    constructor
    · intro e he
      rw [hfold] at he
      exact absurd he (by simp)
    · intro d2 he
      rw [hfold] at he
      refine ⟨s, ⟨⟨orig.data, none⟩, stack ++ [f], orig⟩, ?_, ?_, ?_⟩
      · simp [FilteredResponse.init, DatabaseQueryResult.dump, hd]
      · simpa using Except.ok.inj he
      · simp [Good, hd]
  | some items =>
    have hfold : foldData (stack ++ [f]) orig.data
        = match FilteredResponse.init.applyStack (stack ++ [f]) items with
          | .error e => .error e
          | .ok rows => .ok ⟨some rows, orig.data.rest⟩ := by
      have : orig.data = ⟨some items, orig.data.rest⟩ := by
        cases horig : orig.data with
        | mk i r => rw [horig] at hd; simp at hd; rw [hd]
      rw [this]
      exact foldData_some _ _ _
    cases ha : FilteredResponse.init.applyStack (stack ++ [f]) items with
    | error e =>
      rw [ha] at hfold
      constructor
      · intro e2 he
        rw [hfold] at he
        cases he
        simp [FilteredResponse.init, DatabaseQueryResult.dump, hd, ha]
      · intro d2 he
        rw [hfold] at he
        exact absurd he (by simp)
    | ok rows =>
      rw [ha] at hfold
      constructor
      · intro e he
        rw [hfold] at he
        exact absurd he (by simp)
      · intro d2 he
        rw [hfold] at he
        refine ⟨s ++ [rows],
          ⟨⟨⟨some rows, orig.data.rest⟩, some s.length⟩, stack ++ [f], orig⟩, ?_, ?_, ?_⟩
        · simp [FilteredResponse.init, DatabaseQueryResult.dump, hd, ha]
        · simpa using Except.ok.inj he
        · simp [Good, List.getElem?_concat_length]

theorem chainTail_obs (fs : List Filter) :
    ∀ (s : Store) (fr : FilteredResponse), Good s fr →
      obsRows (chainTail s fr fs) = dataItems (foldData fs fr.dqr.data) := by
  induction fs with
  | nil =>
    intro s fr hg
    rw [chainTail, good_obs s fr hg]
    rfl
  | cons f fs ih =>
    intro s fr hg
    have hspec := init_incr_spec s fr.original_data f fr.filter_stack fr.dqr
    cases hsd : stepData f fr.dqr.data with
    | error e =>
      have hinit := hspec.1 e hsd
      rw [chainTail, FilteredResponse.filter_using, hinit]
      simp [obsRows, foldData, hsd, dataItems]
    | ok d2 =>
      obtain ⟨s2, fr2, hinit, hdata, hgood⟩ := hspec.2 d2 hsd
      rw [chainTail, FilteredResponse.filter_using, hinit]
      rw [ih s2 fr2 hgood, hdata]
      simp [foldData, hsd]

theorem chain_obs (s : Store) (r : DatabaseQueryResult) (f : Filter)
    (fs : List Filter) :
    obsRows (chain s r f fs) = dataItems (foldData (f :: fs) r.data) := by
  have hspec := init_fresh_spec s r f []
  cases hsd : stepData f r.data with
  | error e =>
    have hfold1 : foldData ([] ++ [f]) r.data = .error e := by
      simp [foldData, hsd]
    have hinit := hspec.1 e hfold1
    rw [chain, DatabaseQueryResult.filter_using, hinit]
    simp [obsRows, foldData, hsd, dataItems]
  | ok d2 =>
    have hfold1 : foldData ([] ++ [f]) r.data = .ok d2 := by
      simp [foldData, hsd]
    obtain ⟨s2, fr2, hinit, hdata, hgood⟩ := hspec.2 d2 hfold1
    rw [chain, DatabaseQueryResult.filter_using, hinit]
    rw [chainTail_obs fs s2 fr2 hgood, hdata]
    simp [foldData, hsd]

theorem freshAux_obs (fs : List Filter) :
    ∀ (acc : List Filter) (f : Filter) (s : Store) (r : DatabaseQueryResult),
      obsRows (freshAux s r acc f fs) = dataItems (foldData (acc ++ f :: fs) r.data) := by
  induction fs with
  | nil =>
    intro acc f s r
    have hspec := init_fresh_spec s r f acc
    cases hfold : foldData (acc ++ [f]) r.data with
    | error e =>
      rw [freshAux, hspec.1 e hfold]
      simp [obsRows, dataItems]
    | ok d2 =>
      obtain ⟨s2, fr2, hinit, hdata, hgood⟩ := hspec.2 d2 hfold
      rw [freshAux, hinit, good_obs s2 fr2 hgood, hdata]
      simp [dataItems]
  | cons g gs ih =>
    intro acc f s r
    rw [freshAux, ih (acc ++ [f]) g s r]
    simp [List.append_assoc]

theorem fresh_obs (s : Store) (r : DatabaseQueryResult) (f : Filter)
    (fs : List Filter) :
    obsRows (fresh s r f fs) = dataItems (foldData (f :: fs) r.data) := by
  rw [fresh, freshAux_obs fs [] f s r]
  rfl

/-! ## Claim C1 -/

/-- C1 (confirmed): stack equivalence of the two `FilteredResponse`
construction paths.  For every origin result set, every store and every
nonempty filter sequence `f :: fs`, chaining through the incremental path
(first `DatabaseQueryResult.filter_using`, then
`FilteredResponse.filter_using` for each later filter, each step applying
only the newest filter to the previous step's materialized rows) yields
exactly the same observable row sequence — and the same error, if any
predicate raises — as the fresh path that replays the whole stack in
order against the origin's raw payload rows. -/
theorem C1_stack_equivalence (s : Store) (r : DatabaseQueryResult)
    (f : Filter) (fs : List Filter) :
    obsRows (chain s r f fs) = obsRows (fresh s r f fs) := by
  rw [chain_obs, fresh_obs]

/-! ## Claim C2 -/

/-- C2 (confirmed): missing-field policy of `Filter.apply`.  On every
successful run, `includeMissing=false` keeps a row iff its column is
present and the predicate returns true on `(row[column], literal)`;
`includeMissing=true` keeps a row iff the column is absent or the
predicate returns true, with absence short-circuiting to keep without
evaluating the predicate (rows all lacking the column pass through even
for predicates that would raise).  In particular, for the row `{a: 1}`
and any filter on column `b`, `includeMissing=false` excludes the row and
`includeMissing=true` includes it, regardless of predicate and literal. -/
theorem C2_missing_field_policy (col : String) (lit : Val) (ft : FilterType)
    (rows : List Row) :
    (∀ out, Filter.apply ⟨col, lit, ft, false⟩ rows = .ok out →
      out = rows.filter
        (fun d => rhas d col && decide (ft.value (rgetD d col) lit = .ok true)))
    ∧ (∀ out, Filter.apply ⟨col, lit, ft, true⟩ rows = .ok out →
      out = rows.filter
        (fun d => !rhas d col || decide (ft.value (rgetD d col) lit = .ok true)))
    ∧ ((∀ d ∈ rows, rhas d col = false) →
      Filter.apply ⟨col, lit, ft, true⟩ rows = .ok rows)
    ∧ Filter.apply ⟨("b"), lit, ft, false⟩ [[(("a"), Val.vint 1)]] = .ok []
    ∧ Filter.apply ⟨("b"), lit, ft, true⟩ [[(("a"), Val.vint 1)]]
        = .ok [[(("a"), Val.vint 1)]] := by
  refine ⟨fun out h => apply_ok_keep_false col lit ft rows out h,
    fun out h => apply_ok_keep_true col lit ft rows out h,
    fun h => apply_all_missing col lit ft rows h, rfl, rfl⟩

/-- Witness for C2 at concrete inputs: the `includeMissing=false` filter
on rows `[{k:1}, {j:2}, {k:5}]` with an EQUALS-1 predicate keeps exactly
`{k:1}`, and the row `{j:2}` passes an `includeMissing=true` filter on
column `k`. -/
theorem C2_missing_field_policy_witness :
    ([[(("k"), Val.vint 1)]] : List Row)
      = ([[(("k"), Val.vint 1)], [(("j"), Val.vint 2)],
          [(("k"), Val.vint 5)]] : List Row).filter
          (fun d => rhas d ("k") &&
            decide (FilterType.EQUALS.value (rgetD d ("k")) (Val.vint 1) = .ok true))
    ∧ Filter.apply ⟨("k"), Val.vint 1, .EQUALS, true⟩
        ([[(("j"), Val.vint 2)]] : List Row) = .ok [[(("j"), Val.vint 2)]] := by
  have h := C2_missing_field_policy ("k") (Val.vint 1) .EQUALS
    [[(("k"), Val.vint 1)], [(("j"), Val.vint 2)], [(("k"), Val.vint 5)]]
  have h2 := C2_missing_field_policy ("k") (Val.vint 1) .EQUALS
    [[(("j"), Val.vint 2)]]
  exact ⟨h.1 _ rfl, h2.2.2.1 (by decide)⟩

/-! ## Claim C4 -/

/-- C4 (code bug): on rows `[{k:1}, {}, {k:2}, {}]`,
`unique("k", ignores_empty=False)` returns the EMPTY set, not the
3-element set containing 1, 2 and one null: the comprehension guard
`key in x and ignores_empty` rejects every row once `ignores_empty` is
false (its `else None` element branch is dead code), while
`ignores_empty=True` yields the set of the two present values. -/
theorem C4_unique_null_collapse :
    DatabaseQueryResult.unique
      ([[[(("k"), Val.vint 1)], [], [(("k"), Val.vint 2)], []]] : Store)
      ⟨⟨some [[(("k"), Val.vint 1)], [], [(("k"), Val.vint 2)], []], []⟩, some 0⟩
      ("k") false = .ok []
    ∧ DatabaseQueryResult.unique
      ([[[(("k"), Val.vint 1)], [], [(("k"), Val.vint 2)], []]] : Store)
      ⟨⟨some [[(("k"), Val.vint 1)], [], [(("k"), Val.vint 2)], []], []⟩, some 0⟩
      ("k") true = .ok [Val.vint 1, Val.vint 2] :=
  ⟨rfl, rfl⟩

/-! ## Claim C5 -/

/-- C5 (code bug): `sort` deep-copies `self._data` — the payload dict,
not the row list — and hands the dict to `sorted`, which iterates the
dict's keys and applies the key function `lambda x: x[using]` to each
key string; indexing a string with a string raises `TypeError`.  On a
ResultSet whose payload is `{"Items": [{k:2}, {k:1}]}`, both the
single-key and the key-list form of `sort` therefore raise `TypeError`
instead of returning the rows sorted ascending by `k`. -/
theorem C5_sort_payload_type_error :
    DatabaseQueryResult.sort
      ([[[(("k"), Val.vint 2)], [(("k"), Val.vint 1)]]] : Store)
      ⟨⟨some [[(("k"), Val.vint 2)], [(("k"), Val.vint 1)]], []⟩, some 0⟩
      (.single ("k"))
      = (([[[(("k"), Val.vint 2)], [(("k"), Val.vint 1)]]] : Store),
        .error .typeError)
    ∧ DatabaseQueryResult.sort
      ([[[(("k"), Val.vint 2)], [(("k"), Val.vint 1)]]] : Store)
      ⟨⟨some [[(("k"), Val.vint 2)], [(("k"), Val.vint 1)]], []⟩, some 0⟩
      (.multi ("k") [])
      = (([[[(("k"), Val.vint 2)], [(("k"), Val.vint 1)]]] : Store),
        .error .typeError) :=
  ⟨rfl, rfl⟩

/-! ## Claim C8 -/

theorem rget?_fillRow (d : Row) (c : String) (w : Val) :
    ∀ cols : List String,
      rget? (cols.map (fun k => (k, match rget? d k with
        | some v => v
        | none => w))) c
      = if c ∈ cols then some (match rget? d c with
        | some v => v
        | none => w) else none := by
  intro cols
  induction cols with
  | nil => simp [rget?, List.lookup]
  | cons k ks ih =>
    by_cases hk : c = k
    · subst hk
      simp [rget?, List.lookup]
    · have hb : (c == k) = false := by simpa using hk
      simp only [List.map_cons, rget?, List.lookup, hb]
      simpa [rget?, List.mem_cons, hk] using ih

theorem mem_columnsList_of_rget? {rows : List Row} {d : Row} {c : String} {v : Val}
    (hd : d ∈ rows) (hv : rget? d c = some v) :
    c ∈ DatabaseQueryResult.columnsList rows := by
  have hkey : c ∈ d.map (fun kv => kv.1) := by
    clear hd
    induction d with
    | nil => simp [rget?, List.lookup] at hv
    | cons kv rest ih =>
      obtain ⟨k1, v1⟩ := kv
      by_cases hk : c = k1
      · simp [hk]
      · have hb : (c == k1) = false := by simpa using hk
        simp only [rget?, List.lookup, hb] at hv
        simp [ih hv]
  unfold DatabaseQueryResult.columnsList
  exact List.mem_dedup.mpr (List.mem_flatMap.mpr ⟨d, hd, hkey⟩)

/-- C8 (corrected): CSV header and data layout of `to_csv`.  The header is
`leftColumnOrder`, then the remaining observed columns (those in neither
order list) sorted ascending, then the deduplicated right columns — but
the right block is `list(set(col_order_right) - set(col_order_left))`, an
enumeration of a Python set whose order is unspecified, not
`rightColumnOrder` in its given order (see the counterexample).  Each
result row is written in header order, with a missing field rendered as
the empty cell. -/
theorem C8_to_csv_layout (rows : List Row) (left right rdedup : List String)
    (h : DatabaseQueryResult.IsSetDiffEnum rdedup right left) :
    (DatabaseQueryResult.to_csv rows left rdedup).1
      = left ++ DatabaseQueryResult.sortStrings
          ((DatabaseQueryResult.columnsList rows).filter
            (fun c => !right.contains c && !left.contains c)) ++ rdedup
    ∧ (DatabaseQueryResult.to_csv rows left rdedup).2
      = rows.map (fun d => ((DatabaseQueryResult.to_csv rows left rdedup).1).map
          (fun c => match rget? d c with
            | some v => DatabaseQueryResult.csvCell v
            | none => (""))) := by
  have hfilter : (DatabaseQueryResult.columnsList rows).filter
        (fun c => !rdedup.contains c && !left.contains c)
      = (DatabaseQueryResult.columnsList rows).filter
        (fun c => !right.contains c && !left.contains c) := by
    refine List.filter_congr (fun c _ => ?_)
    by_cases hl : c ∈ left
    · simp [hl]
    · by_cases hr : c ∈ right
      · have h1 : c ∈ rdedup := (h.2 c).mpr ⟨hr, hl⟩
        simp [hl, hr, h1]
      · have h1 : c ∉ rdedup := fun hc => hr ((h.2 c).mp hc).1
        simp [hl, hr, h1]
  have hcore : ∀ (header : List String) (d : Row), d ∈ rows →
      header.map (fun c => match rget? ((DatabaseQueryResult.columnsList rows).map
          (fun k => (k, match rget? d k with
            | some v => v
            | none => Val.vnull))) c with
        | some v => DatabaseQueryResult.csvCell v
        | none => (""))
      = header.map (fun c => match rget? d c with
        | some v => DatabaseQueryResult.csvCell v
        | none => ("")) := by
    intro header d hd
    refine List.map_congr_left (fun c _ => ?_)
    rw [rget?_fillRow d c Val.vnull (DatabaseQueryResult.columnsList rows)]
    by_cases hc : c ∈ DatabaseQueryResult.columnsList rows
    · rw [if_pos hc]
      cases hv : rget? d c with
      | some v => rfl
      | none => rfl
    · rw [if_neg hc]
      cases hv : rget? d c with
      | some v => exact absurd (mem_columnsList_of_rget? hd hv) hc
      | none => rfl
  constructor
  · show left ++ DatabaseQueryResult.sortStrings
        ((DatabaseQueryResult.columnsList rows).filter
          (fun c => !rdedup.contains c && !left.contains c)) ++ rdedup
      = left ++ DatabaseQueryResult.sortStrings
        ((DatabaseQueryResult.columnsList rows).filter
          (fun c => !right.contains c && !left.contains c)) ++ rdedup
    rw [hfilter]
  · have key : (DatabaseQueryResult.to_csv rows left rdedup).2
        = (rows.map (fun d => (DatabaseQueryResult.columnsList rows).map
            (fun k => (k, match rget? d k with
              | some v => v
              | none => Val.vnull)))).map
          (fun d => ((DatabaseQueryResult.to_csv rows left rdedup).1).map
            (fun c => match rget? d c with
              | some v => DatabaseQueryResult.csvCell v
              | none => (""))) := rfl
    rw [key, List.map_map]
    exact List.map_congr_left (fun d hd =>
      hcore (DatabaseQueryResult.to_csv rows left rdedup).1 d hd)

/-- C8 counterexample: the right block does not come out in
`rightColumnOrder`'s given order.  With observed column `a`,
`leftColumnOrder = []` and `rightColumnOrder = ["b", "a"]`, the
enumeration `["a", "b"]` is a valid CPython enumeration of the set
`set(["b", "a"]) - set([])` (set iteration order is hash-seed dependent
and unspecified), and it yields the header `["a", "b"]`, not the
`["b", "a"]` the claim's header formula demands. -/
theorem C8_right_order_counterexample :
    DatabaseQueryResult.IsSetDiffEnum [("a"), ("b")] [("b"), ("a")] []
    ∧ (DatabaseQueryResult.to_csv ([[(("a"), Val.vint 1)]] : List Row)
        [] [("a"), ("b")]).1 = [("a"), ("b")]
    ∧ ([] : List String) ++ DatabaseQueryResult.sortStrings
        ((DatabaseQueryResult.columnsList ([[(("a"), Val.vint 1)]] : List Row)).filter
          (fun c => (!(([("b"), ("a")] : List String).contains c))
            && (!(([] : List String).contains c))))
        ++ [("b"), ("a")] = [("b"), ("a")]
    ∧ ([("a"), ("b")] : List String) ≠ [("b"), ("a")] := by
  refine ⟨by decide, rfl, rfl, by decide⟩

/-- Witness for C8 at the spec's example: `[{a:1,b:2}, {a:3}]` with
`leftOrder = ["a"]` (right order empty, so its set enumeration is
forced empty) produces header `a,b` and rows `1,2` then `3,`(empty). -/
theorem C8_to_csv_layout_witness :
    (DatabaseQueryResult.to_csv
      ([[(("a"), Val.vint 1), (("b"), Val.vint 2)],
        [(("a"), Val.vint 3)]] : List Row) [("a")] []).1
      = [("a"), ("b")]
    ∧ (DatabaseQueryResult.to_csv
      ([[(("a"), Val.vint 1), (("b"), Val.vint 2)],
        [(("a"), Val.vint 3)]] : List Row) [("a")] []).2
      = [[("1"), ("2")], [("3"), ("")]] := by
  have h := C8_to_csv_layout
    ([[(("a"), Val.vint 1), (("b"), Val.vint 2)], [(("a"), Val.vint 3)]] : List Row)
    [("a")] [] [] (by decide)
  exact ⟨h.1.trans (by rfl), h.2.trans (by rfl)⟩

/-! ## Claim C9 -/

theorem apply_keep_all (f : Filter) :
    ∀ rows : List Row, (∀ d ∈ rows, rhas d f.col = true) →
      (∀ d ∈ rows, f.filter_type.value (rgetD d f.col) f.val = .ok true) →
      f.apply rows = .ok rows := by
  intro rows
  induction rows with
  | nil => intro _ _; rfl
  | cons d ds ih =>
    intro hcol htrue
    have hd : rhas d f.col = true := hcol d (List.mem_cons_self d ds)
    have hv : f.filter_type.value (rgetD d f.col) f.val = .ok true :=
      htrue d (List.mem_cons_self d ds)
    have hds := ih (fun x hx => hcol x (List.mem_cons_of_mem d hx))
      (fun x hx => htrue x (List.mem_cons_of_mem d hx))
    cases hie : f.includes_empty with
    | true => simp [Filter.apply, hie, hd, hv, hds, Bind.bind, Except.bind, pure, Except.pure]
    | false => simp [Filter.apply, hie, hd, hv, hds, Bind.bind, Except.bind, pure, Except.pure]

/-- C9 counterexample: the claim fails as stated.  Filtering the
single-row set `[{}]` on column `a` (default `includeEmpty=false`) with a
predicate that is never evaluated at all — so it vacuously returns true
on every input it receives — yields the empty row sequence, not a
sequence identical to the input: rows missing the filter column are
dropped regardless of the predicate. -/
theorem C9_always_true_counterexample :
    (∀ d ∈ ([[]] : List Row), rhas d ("a") = false)
    ∧ obsRows (DatabaseQueryResult.filter ([[[]]] : Store)
        ⟨⟨some [[]], []⟩, some 0⟩ ("a") (Val.vint 0) .NOT_EQUAL false)
      = .ok (some [])
    ∧ (some ([] : List Row)) ≠ some ([[]] : List Row) := by
  exact ⟨by decide, rfl, by decide⟩

/-- C9 (corrected, amended): filtering with a predicate that returns true
on every input arising from the rows is the identity on the row sequence,
provided every row contains the filter column (with `includeEmpty=false`,
the default, rows missing the column are dropped regardless of the
predicate — see the counterexample). -/
theorem C9_always_true_filter_identity (s : Store) (r : DatabaseQueryResult)
    (col : String) (v : Val) (ft : FilterType) (ie : Bool) (items : List Row)
    (hd : r.data.items? = some items)
    (hcol : ∀ d ∈ items, rhas d col = true)
    (htrue : ∀ d ∈ items, ft.value (rgetD d col) v = .ok true) :
    obsRows (DatabaseQueryResult.filter s r col v ft ie) = .ok (some items) := by
  have happly : Filter.apply ⟨col, v, ft, ie⟩ items = .ok items :=
    apply_keep_all ⟨col, v, ft, ie⟩ items hcol htrue
  have hfold : foldData ([] ++ [⟨col, v, ft, ie⟩]) r.data
      = .ok ⟨some items, r.data.rest⟩ := by
    simp [foldData, stepData, hd, happly]
  obtain ⟨s2, fr2, hinit, hdata, hgood⟩ :=
    (init_fresh_spec s r ⟨col, v, ft, ie⟩ []).2 _ hfold
  show obsRows (FilteredResponse.init s r ⟨col, v, ft, ie⟩ [] none)
    = .ok (some items)
  rw [hinit, good_obs s2 fr2 hgood, hdata]

/-- Witness for the amended C9: filtering `[{a:1}]` on `a` with
NOT_EQUAL 5 (true on the only input it sees) returns the same single-row
sequence. -/
theorem C9_always_true_filter_identity_witness :
    obsRows (DatabaseQueryResult.filter ([[[(("a"), Val.vint 1)]]] : Store)
        ⟨⟨some [[(("a"), Val.vint 1)]], []⟩, some 0⟩
        ("a") (Val.vint 5) .NOT_EQUAL false)
      = .ok (some [[(("a"), Val.vint 1)]]) :=
  C9_always_true_filter_identity ([[[(("a"), Val.vint 1)]]] : Store)
    ⟨⟨some [[(("a"), Val.vint 1)]], []⟩, some 0⟩
    ("a") (Val.vint 5) .NOT_EQUAL false [[(("a"), Val.vint 1)]]
    rfl (by decide) (by decide)

/-! ## Claim C6 -/

/-- C6 (confirmed): string-keyed access cardinality contract.  On a
result set whose `_items` reference designates a row list: with exactly
one row, `result[fieldName]` returns that row's field; with zero rows it
raises `IndexError`; with more than one row it raises `TypeError` — so
"no result" and "ambiguous result" are distinguishable failures. -/
theorem C6_getitem_cardinality (s : Store) (r : DatabaseQueryResult)
    (k : String) (ref : Nat) (items : List Row)
    (hi : r.items = some ref) (hs : s[ref]? = some items) :
    (∀ row v, items = [row] → rget? row k = some v →
      DatabaseQueryResult.getItemStr s r k = .ok v)
    ∧ (items.length = 0 →
      DatabaseQueryResult.getItemStr s r k = .error .indexError)
    ∧ (1 < items.length →
      DatabaseQueryResult.getItemStr s r k = .error .typeError) := by
  have hread : readList s ref = items := by simp [readList, hs]
  have hlen : DatabaseQueryResult.length s r = .ok items.length := by
    simp [DatabaseQueryResult.length, hi, hread]
  have hall : DatabaseQueryResult.allRows s r = items := by
    simp [DatabaseQueryResult.allRows, hi, hread]
  refine ⟨?_, ?_, ?_⟩
  · intro row v hrow hv
    subst hrow
    simp [DatabaseQueryResult.getItemStr, hlen, hall, hv]
  · intro h0
    simp [DatabaseQueryResult.getItemStr, hlen, hall, h0]
  · intro h2
    have h1 : items.length ≠ 1 := by omega
    have h0 : items.length ≠ 0 := by omega
    simp [DatabaseQueryResult.getItemStr, hlen, hall, h1, h0]

/-- Witness for C6: all three cardinalities at concrete inputs. -/
theorem C6_getitem_cardinality_witness :
    DatabaseQueryResult.getItemStr ([[[(("f"), Val.vint 7)]]] : Store)
      ⟨⟨some [[(("f"), Val.vint 7)]], []⟩, some 0⟩ ("f") = .ok (Val.vint 7)
    ∧ DatabaseQueryResult.getItemStr ([([] : List Row)] : Store)
      ⟨⟨some [], []⟩, some 0⟩ ("f") = .error .indexError
    ∧ DatabaseQueryResult.getItemStr ([[[], []]] : Store)
      ⟨⟨some [[], []], []⟩, some 0⟩ ("f") = .error .typeError := by
  refine ⟨?_, ?_, ?_⟩
  · exact (C6_getitem_cardinality ([[[(("f"), Val.vint 7)]]] : Store)
      ⟨⟨some [[(("f"), Val.vint 7)]], []⟩, some 0⟩ ("f") 0
      [[(("f"), Val.vint 7)]] rfl rfl).1 _ _ rfl rfl
  · exact (C6_getitem_cardinality ([([] : List Row)] : Store)
      ⟨⟨some [], []⟩, some 0⟩ ("f") 0 [] rfl rfl).2.1 rfl
  · exact (C6_getitem_cardinality ([[[], []]] : Store)
      ⟨⟨some [[], []], []⟩, some 0⟩ ("f") 0 [[], []] rfl rfl).2.2 (by decide)

/-! ## Claim C10 -/

/-- C10 (confirmed): the constructor deep-copies the payload into
`_data` but keeps `_items` aliasing the caller's "Items" list object.
For a single-row result, after `__setitem__(k, v)` the new value is
observable through `all()`, string indexing and the iteration protocol
(which yields the updated `(fieldName, value)` pairs), while `dump()`
still returns the payload exactly as it was at construction time: the
mutation went through the shared list object, not the snapshot. -/
theorem C10_setitem_aliasing (s : Store) (ref : Nat)
    (rest : List (String × Val)) (row : Row) (k : String) (v : Val)
    (hs : s[ref]? = some [row]) :
    match DatabaseQueryResult.setItemStr s
        (DatabaseQueryResult.init s ⟨some ref, rest⟩) k v with
    | .ok s2 =>
        DatabaseQueryResult.allRows s2 (DatabaseQueryResult.init s ⟨some ref, rest⟩)
          = [rset row k v]
        ∧ DatabaseQueryResult.getItemStr s2
            (DatabaseQueryResult.init s ⟨some ref, rest⟩) k = .ok v
        ∧ DatabaseQueryResult.iterate s2
            (DatabaseQueryResult.init s ⟨some ref, rest⟩) = .ok (.pairs (rset row k v))
        ∧ (DatabaseQueryResult.init s ⟨some ref, rest⟩).dump = ⟨some [row], rest⟩
    | .error _ => False := by
  have hread : readList s ref = [row] := by simp [readList, hs]
  have hlt : ref < s.length := by
    rcases List.getElem?_eq_some_iff.mp hs with ⟨h, _⟩
    exact h
  have hset : DatabaseQueryResult.setItemStr s
      (DatabaseQueryResult.init s ⟨some ref, rest⟩) k v
      = .ok (s.set ref [rset row k v]) := by
    simp [DatabaseQueryResult.setItemStr, DatabaseQueryResult.init, snapshot, hread]
  rw [hset]
  have hread2 : readList (s.set ref [rset row k v]) ref = [rset row k v] := by
    simp [readList, List.getElem?_set_self hlt]
  refine ⟨?_, ?_, ?_, ?_⟩
  · simp [DatabaseQueryResult.allRows, DatabaseQueryResult.init, snapshot, hread2]
  · simp [DatabaseQueryResult.getItemStr, DatabaseQueryResult.length,
      DatabaseQueryResult.allRows, DatabaseQueryResult.init, snapshot, hread2,
      rget?_rset_self]
  · simp [DatabaseQueryResult.iterate, DatabaseQueryResult.length,
      DatabaseQueryResult.allRows, DatabaseQueryResult.init, snapshot, hread2]
  · simp [DatabaseQueryResult.dump, DatabaseQueryResult.init, snapshot, hread]

/-- Witness for C10: writing `b := 9` into a freshly constructed
single-row result makes the pair observable through `all()`, indexing
and iteration, while `dump()` keeps the construction-time payload. -/
theorem C10_setitem_aliasing_witness :
    DatabaseQueryResult.allRows
      (([[[(("a"), Val.vint 1)]]] : Store).set 0 [rset [(("a"), Val.vint 1)] ("b") (Val.vint 9)])
      (DatabaseQueryResult.init ([[[(("a"), Val.vint 1)]]] : Store) ⟨some 0, []⟩)
      = [[(("a"), Val.vint 1), (("b"), Val.vint 9)]]
    ∧ DatabaseQueryResult.getItemStr
      (([[[(("a"), Val.vint 1)]]] : Store).set 0 [rset [(("a"), Val.vint 1)] ("b") (Val.vint 9)])
      (DatabaseQueryResult.init ([[[(("a"), Val.vint 1)]]] : Store) ⟨some 0, []⟩) ("b")
      = .ok (Val.vint 9)
    ∧ (DatabaseQueryResult.init ([[[(("a"), Val.vint 1)]]] : Store) ⟨some 0, []⟩).dump
      = ⟨some [[(("a"), Val.vint 1)]], []⟩ := by
  have h := C10_setitem_aliasing ([[[(("a"), Val.vint 1)]]] : Store) 0 []
    [(("a"), Val.vint 1)] ("b") (Val.vint 9) rfl
  exact ⟨h.1, h.2.1, h.2.2.2⟩

/-! ## Claim C7 -/

theorem apply_equals_total (col : String) (v : Val) :
    ∀ rows : List Row, ∃ out, Filter.apply ⟨col, v, .EQUALS, false⟩ rows = .ok out := by
  intro rows
  induction rows with
  | nil => exact ⟨[], rfl⟩
  | cons d ds ih =>
    obtain ⟨out, hout⟩ := ih
    by_cases hc : rhas d col
    · refine ⟨if pyEq (rgetD d col) v then d :: out else out, ?_⟩
      simp [Filter.apply, hc, hout, FilterType.value, Bind.bind, Except.bind,
        pure, Except.pure]
    · have hcf : rhas d col = false := by simpa using hc
      exact ⟨out, by simp [Filter.apply, hcf, hout]⟩

theorem getWhereRow_ok (wd : PayloadV) (key : String) (value : Val)
    (od : List Row) (hod : wd.items? = some od) :
    ∃ m, DatabaseQueryResult.getWhereRow wd key value = .ok m := by
  obtain ⟨out, hout⟩ := apply_equals_total key value od
  exact ⟨out.headD [], by simp [DatabaseQueryResult.getWhereRow, hod, hout]⟩

theorem joinLoop_spec (wd : PayloadV) (using_ : String) (od : List Row)
    (hod : wd.items? = some od) :
    ∀ rows : List Row, ∃ out : List Row,
      DatabaseQueryResult.joinLoop wd using_ rows = .ok out
      ∧ out.length = rows.length
      ∧ ∀ (i : Nat) (d : Row), rows[i]? = some d → rhas d using_ = false →
          out[i]? = some d := by
  intro rows
  induction rows with
  | nil =>
    refine ⟨[], rfl, rfl, ?_⟩
    intro i d h
    simp at h
  | cons d ds ih =>
    obtain ⟨out, hout, hlen, hget⟩ := ih
    by_cases hd : rhas d using_
    · obtain ⟨m, hm⟩ := getWhereRow_ok wd using_ (rgetD d using_) od hod
      refine ⟨rupdate d m :: out, ?_, by simp [hlen], ?_⟩
      · rw [DatabaseQueryResult.joinLoop, if_pos hd, hm, hout]
      · intro i dd hdd hhas
        cases i with
        | zero =>
          simp at hdd
          rw [← hdd] at hhas
          rw [hd] at hhas
          cases hhas
        | succ n =>
          simp only [List.getElem?_cons_succ] at hdd ⊢
          exact hget n dd hdd hhas
    · have hdf : rhas d using_ = false := by simpa using hd
      refine ⟨d :: out, ?_, by simp [hlen], ?_⟩
      · rw [DatabaseQueryResult.joinLoop, if_neg hd, hout]
      · intro i dd hdd hhas
        cases i with
        | zero => simpa using hdd
        | succ n =>
          simp only [List.getElem?_cons_succ] at hdd ⊢
          exact hget n dd hdd hhas

theorem contains_columnsList {rows : List Row} {c : String} :
    (DatabaseQueryResult.columnsList rows).contains c = true
      ↔ ∃ d ∈ rows, rhas d c = true := by
  unfold DatabaseQueryResult.columnsList
  constructor
  · intro h
    have hmem : c ∈ (rows.flatMap (fun d => d.map (fun kv => kv.1))).dedup := by
      simpa [List.contains, List.elem_iff] using h
    obtain ⟨d, hd, hk⟩ := List.mem_flatMap.mp (List.mem_dedup.mp hmem)
    obtain ⟨kv, hkv, hfst⟩ := List.mem_map.mp hk
    refine ⟨d, hd, ?_⟩
    show d.any (fun kv => kv.1 == c) = true
    exact List.any_eq_true.mpr ⟨kv, hkv, by simp [hfst]⟩
  · intro ⟨d, hd, hc⟩
    simp only [rhas, List.any_eq_true] at hc
    obtain ⟨kv, hkv, hfst⟩ := hc
    have : c ∈ rows.flatMap (fun d => d.map (fun kv => kv.1)) :=
      List.mem_flatMap.mpr ⟨d, hd, List.mem_map.mpr ⟨kv, hkv, by simpa using hfst⟩⟩
    simpa [List.contains, List.elem_iff] using List.mem_dedup.mpr this

/-- The no-op branch of `join`: when the join column is not an observed
column of the receiver, `join` executes `return self`. -/
theorem join_noop_of_not_contains (s : Store) (r other : DatabaseQueryResult)
    (using_ : String)
    (hcf : (DatabaseQueryResult.columnsList
      (DatabaseQueryResult.allRows s r)).contains using_ = false) :
    DatabaseQueryResult.join s r other using_ = (s, .ok r) := by
  unfold DatabaseQueryResult.join
  rw [if_pos (show (!(DatabaseQueryResult.columnsList
    (DatabaseQueryResult.allRows s r)).contains using_) = true by rw [hcf]; rfl)]

theorem join_eq_of_contains (s : Store) (r other : DatabaseQueryResult)
    (using_ : String) (wref : Nat) (out : List Row)
    (hcont : (DatabaseQueryResult.columnsList
      (DatabaseQueryResult.allRows s r)).contains using_ = true)
    (hwref : other.items = some wref)
    (hhash : ((readList s wref).filterMap (fun x =>
      if rhas x using_ then some (rgetD x using_) else none)).all
        DatabaseQueryResult.pyHashable = true)
    (hloop : DatabaseQueryResult.joinLoop other.data using_
      (DatabaseQueryResult.allRows s r) = .ok out) :
    DatabaseQueryResult.join s r other using_
      = (s ++ [out], .ok ⟨⟨some out, []⟩, some s.length⟩) := by
  unfold DatabaseQueryResult.join
  rw [if_neg (by rw [hcont]; simp)]
  rw [hwref]
  have hset : DatabaseQueryResult.pySet ((readList s wref).filterMap (fun x =>
      if rhas x using_ then some (rgetD x using_) else none))
      = .ok (DatabaseQueryResult.pySetDedup ((readList s wref).filterMap (fun x =>
        if rhas x using_ then some (rgetD x using_) else none))) := by
    unfold DatabaseQueryResult.pySet
    rw [if_pos hhash]
  simp only [hset, hloop]
  rfl

/-- C7 (confirmed): join pass-through.  When no row of `self`
contains the join column, `join` is a no-op returning `self` itself with
the store untouched.  In general (right side with a live row list, an
"Items" payload and hashable join-key values, so the warning check and
the point lookups run), the join succeeds and every row of `self`
lacking the join column reappears unchanged at its position in the
result. -/
theorem C7_join_passthrough (s : Store) (r other : DatabaseQueryResult)
    (using_ : String) :
    ((DatabaseQueryResult.allRows s r).all (fun d => !rhas d using_) = true →
      DatabaseQueryResult.join s r other using_ = (s, .ok r))
    ∧ (∀ (wref : Nat) (wrows od : List Row),
      other.items = some wref → s[wref]? = some wrows →
      other.data.items? = some od →
      (wrows.filterMap (fun x =>
        if rhas x using_ then some (rgetD x using_) else none)).all
          DatabaseQueryResult.pyHashable = true →
      match DatabaseQueryResult.join s r other using_ with
      | (s2, .ok res) =>
          ∀ (i : Nat) (d : Row), (DatabaseQueryResult.allRows s r)[i]? = some d →
            rhas d using_ = false →
            ∃ out, res.items.map (fun ref => readList s2 ref) = some out
              ∧ out[i]? = some d
      | (_, .error _) => False) := by
  constructor
  · intro hall
    have hcf : (DatabaseQueryResult.columnsList
        (DatabaseQueryResult.allRows s r)).contains using_ = false := by
      cases hc : (DatabaseQueryResult.columnsList
          (DatabaseQueryResult.allRows s r)).contains using_
      · rfl
      · obtain ⟨d, hd, hhas⟩ := contains_columnsList.mp hc
        have := List.all_eq_true.mp hall d hd
        rw [hhas] at this
        cases this
    exact join_noop_of_not_contains s r other using_ hcf
  · intro wref wrows od hwref hs hod hhash
    have hread : readList s wref = wrows := by simp [readList, hs]
    cases hcont : (DatabaseQueryResult.columnsList
        (DatabaseQueryResult.allRows s r)).contains using_ with
    | false =>
      rw [join_noop_of_not_contains s r other using_ hcont]
      intro i d hdd hhas
      cases hri : r.items with
      | none =>
        rw [DatabaseQueryResult.allRows, hri] at hdd
        simp at hdd
      | some ref =>
        refine ⟨readList s ref, by simp [hri], ?_⟩
        rw [DatabaseQueryResult.allRows, hri] at hdd
        exact hdd
    | true =>
      obtain ⟨out, hloop, hlen, hget⟩ :=
        joinLoop_spec other.data using_ od hod (DatabaseQueryResult.allRows s r)
      rw [join_eq_of_contains s r other using_ wref out hcont hwref
        (by rw [hread]; exact hhash) hloop]
      intro i d hdd hhas
      refine ⟨out, ?_, hget i d hdd hhas⟩
      simp [readList, List.getElem?_concat_length]

/-- Witness for C7: a no-op join (no row has column `x`) returns the
receiver itself, and a real join passes the row lacking the join column
through unchanged. -/
theorem C7_join_passthrough_witness :
    DatabaseQueryResult.join ([[[(("a"), Val.vint 1)]]] : Store)
      ⟨⟨some [[(("a"), Val.vint 1)]], []⟩, some 0⟩
      ⟨⟨some [[(("a"), Val.vint 1)]], []⟩, some 0⟩ ("x")
      = (([[[(("a"), Val.vint 1)]]] : Store),
        .ok ⟨⟨some [[(("a"), Val.vint 1)]], []⟩, some 0⟩)
    ∧ ∃ out, (match DatabaseQueryResult.join
        ([[[(("j"), Val.vint 1)], [(("b"), Val.vint 7)]],
          [[(("j"), Val.vint 1), (("c"), Val.vint 3)]]] : Store)
        ⟨⟨some [[(("j"), Val.vint 1)], [(("b"), Val.vint 7)]], []⟩, some 0⟩
        ⟨⟨some [[(("j"), Val.vint 1), (("c"), Val.vint 3)]], []⟩, some 1⟩ ("j") with
      | (s2, .ok res) => res.items.map (fun ref => readList s2 ref) = some out
      | (_, .error _) => False)
      ∧ out[1]? = some [(("b"), Val.vint 7)] := by
  constructor
  · exact (C7_join_passthrough ([[[(("a"), Val.vint 1)]]] : Store)
      ⟨⟨some [[(("a"), Val.vint 1)]], []⟩, some 0⟩
      ⟨⟨some [[(("a"), Val.vint 1)]], []⟩, some 0⟩ ("x")).1 (by decide)
  · have h := (C7_join_passthrough
      ([[[(("j"), Val.vint 1)], [(("b"), Val.vint 7)]],
        [[(("j"), Val.vint 1), (("c"), Val.vint 3)]]] : Store)
      ⟨⟨some [[(("j"), Val.vint 1)], [(("b"), Val.vint 7)]], []⟩, some 0⟩
      ⟨⟨some [[(("j"), Val.vint 1), (("c"), Val.vint 3)]], []⟩, some 1⟩ ("j")).2
      1 [[(("j"), Val.vint 1), (("c"), Val.vint 3)]]
      [[(("j"), Val.vint 1), (("c"), Val.vint 3)]]
      rfl rfl rfl (by decide)
    obtain ⟨out, hmap, hout⟩ := h 1 [(("b"), Val.vint 7)] (by decide) (by decide)
    exact ⟨out, hmap, hout⟩

/-! ## Claim C3 -/

theorem wfRefB_bound {s : Store} {r : DatabaseQueryResult} (h : wfRefB s r = true) :
    ∀ ref, r.items = some ref → ref < s.length := by
  intro ref hi
  unfold wfRefB at h
  rw [hi] at h
  simpa using h

theorem preserve_append (s : Store) (x : List Row) {r : DatabaseQueryResult}
    (h : wfRefB s r = true) :
    rowsSeen (s ++ [x]) r.items = rowsSeen s r.items :=
  rowsSeen_append [x] (wfRefB_bound h)

theorem strip_shape (s : Store) (r : DatabaseQueryResult)
    (keys : Option (List String)) (key : Option String) :
    DatabaseQueryResult.strip s r keys key = (s, .error .keyError)
    ∨ ∃ out, DatabaseQueryResult.strip s r keys key
        = (s ++ [out], .ok ⟨⟨some out, []⟩, some s.length⟩) := by
  cases keys with
  | none =>
    cases key with
    | none => exact Or.inl rfl
    | some k => exact Or.inr ⟨_, rfl⟩
  | some ks => exact Or.inr ⟨_, rfl⟩

theorem select_columns_shape (s : Store) (r : DatabaseQueryResult)
    (columns : List String) :
    ∃ out, DatabaseQueryResult.select_columns s r columns
      = (s ++ [out], .ok ⟨⟨some out, []⟩, some s.length⟩) :=
  ⟨_, rfl⟩

theorem applyFn_shape (s : Store) (r : DatabaseQueryResult)
    (function : List Val → Val) (args : List String) (new_col : Option String) :
    DatabaseQueryResult.applyFn s r function args new_col = (s, .error .runtimeError)
    ∨ ∃ out, DatabaseQueryResult.applyFn s r function args new_col
        = (s ++ [out], .ok ⟨⟨some out, []⟩, some s.length⟩) := by
  cases args with
  | nil => exact Or.inl rfl
  | cons a rest => exact Or.inr ⟨_, rfl⟩

theorem fill_empty_shape (s : Store) (r : DatabaseQueryResult) (with_data : Val) :
    ∃ out, DatabaseQueryResult.fill_empty s r with_data
      = (s ++ [out], .ok ⟨⟨some out, []⟩, some s.length⟩) :=
  ⟨_, rfl⟩

theorem sort_shape (s : Store) (r : DatabaseQueryResult)
    (u : DatabaseQueryResult.SortKey) :
    (∃ e, DatabaseQueryResult.sort s r u = (s, .error e))
    ∨ DatabaseQueryResult.sort s r u
        = (s ++ [[]], .ok ⟨⟨some [], []⟩, some s.length⟩) := by
  cases h : DatabaseQueryResult.sortKeyed r.data u with
  | error e => exact Or.inl ⟨e, by simp [DatabaseQueryResult.sort, h]⟩
  | ok vs =>
    exact Or.inr (by simp [DatabaseQueryResult.sort, h, DatabaseQueryResult.mkResult])

theorem join_shape (s : Store) (r other : DatabaseQueryResult) (using_ : String) :
    DatabaseQueryResult.join s r other using_ = (s, .ok r)
    ∨ (∃ e, DatabaseQueryResult.join s r other using_ = (s, .error e))
    ∨ (∃ out, DatabaseQueryResult.join s r other using_
        = (s ++ [out], .ok ⟨⟨some out, []⟩, some s.length⟩)) := by
  cases hc : (DatabaseQueryResult.columnsList
      (DatabaseQueryResult.allRows s r)).contains using_ with
  | false => exact Or.inl (join_noop_of_not_contains s r other using_ hc)
  | true =>
    unfold DatabaseQueryResult.join
    rw [if_neg (by rw [hc]; simp)]
    cases ho : other.items with
    | none => exact Or.inr (Or.inl ⟨.typeError, by simp only [ho]⟩)
    | some wref =>
      cases hp : DatabaseQueryResult.pySet ((readList s wref).filterMap (fun x =>
          if rhas x using_ then some (rgetD x using_) else none)) with
      | error e => exact Or.inr (Or.inl ⟨e, by simp only [ho, hp]⟩)
      | ok vs =>
        cases hl : DatabaseQueryResult.joinLoop other.data using_
            (DatabaseQueryResult.allRows s r) with
        | error e => exact Or.inr (Or.inl ⟨e, by simp only [ho, hp, hl]⟩)
        | ok out =>
          exact Or.inr (Or.inr ⟨out, by simp only [ho, hp, hl]; rfl⟩)

theorem filter_shape (s : Store) (r : DatabaseQueryResult) (column : String)
    (v : Val) (ft : FilterType) (ie : Bool) :
    (∃ e, DatabaseQueryResult.filter s r column v ft ie = (s, .error e))
    ∨ (∃ fr, DatabaseQueryResult.filter s r column v ft ie = (s, .ok fr)
        ∧ fr.dqr.items = none)
    ∨ (∃ rows fr, DatabaseQueryResult.filter s r column v ft ie
        = (s ++ [rows], .ok fr) ∧ fr.dqr.items = some s.length) := by
  cases hd : r.data.items? with
  | none =>
    refine Or.inr (Or.inl ⟨⟨⟨r.data, none⟩, [⟨column, v, ft, ie⟩], r⟩, ?_, rfl⟩)
    simp [DatabaseQueryResult.filter, DatabaseQueryResult.filter_using,
      FilteredResponse.init, DatabaseQueryResult.dump, hd]
  | some items =>
    cases ha : FilteredResponse.init.applyStack [⟨column, v, ft, ie⟩] items with
    | error e =>
      refine Or.inl ⟨e, ?_⟩
      simp [DatabaseQueryResult.filter, DatabaseQueryResult.filter_using,
        FilteredResponse.init, DatabaseQueryResult.dump, hd, ha]
    | ok rows =>
      refine Or.inr (Or.inr ⟨rows,
        ⟨⟨⟨some rows, r.data.rest⟩, some s.length⟩, [⟨column, v, ft, ie⟩], r⟩,
        ?_, rfl⟩)
      simp [DatabaseQueryResult.filter, DatabaseQueryResult.filter_using,
        FilteredResponse.init, DatabaseQueryResult.dump, hd, ha]

/-- C3 counterexample: "every derivation returns a NEW ResultSet" fails
for `join`.  On a receiver whose rows never contain the join column the
source executes `return self`: the outcome is the receiver object itself
(same `_items` list reference, store untouched), not a new ResultSet. -/
theorem C3_join_noop_counterexample :
    DatabaseQueryResult.join ([[[(("b"), Val.vint 5)]]] : Store)
      ⟨⟨some [[(("b"), Val.vint 5)]], []⟩, some 0⟩
      ⟨⟨some [[(("b"), Val.vint 5)]], []⟩, some 0⟩ ("q")
      = (([[[(("b"), Val.vint 5)]]] : Store),
        .ok ⟨⟨some [[(("b"), Val.vint 5)]], []⟩, some 0⟩)
    ∧ (⟨⟨some [[(("b"), Val.vint 5)]], []⟩,
        some 0⟩ : DatabaseQueryResult).items = some 0 :=
  ⟨rfl, rfl⟩

/-- C3 (corrected, amended): frame property of the derivations.  Every
derivation (`strip`, `select_columns`, `apply`, `fill_empty`, `sort`,
`join`, `filter`) leaves the row sequence visible through the receiver's
(and, for `join`, the other input's) `_items` reference unchanged,
whether it succeeds or fails, and a failing derivation leaves the store
exactly as it was.  A succeeding derivation materializes its result in a
freshly allocated list object — except `join` when the join column
occurs in no row of the receiver, which returns the receiver itself
(see the counterexample), and `filter` of a payload with no "Items"
key, whose result has no row list at all. -/
theorem C3_derivations_immutable (s : Store) (r other : DatabaseQueryResult)
    (keys : Option (List String)) (key : Option String) (columns : List String)
    (function : List Val → Val) (args : List String) (new_col : Option String)
    (with_data : Val) (u : DatabaseQueryResult.SortKey) (using_ : String)
    (column : String) (v : Val) (ft : FilterType) (ie : Bool)
    (hr : wfRefB s r = true) (ho : wfRefB s other = true) :
    (rowsSeen (DatabaseQueryResult.strip s r keys key).1 r.items
        = rowsSeen s r.items
      ∧ match (DatabaseQueryResult.strip s r keys key).2 with
        | .ok res => res.items = some s.length
        | .error _ => (DatabaseQueryResult.strip s r keys key).1 = s)
    ∧ (rowsSeen (DatabaseQueryResult.select_columns s r columns).1 r.items
        = rowsSeen s r.items
      ∧ match (DatabaseQueryResult.select_columns s r columns).2 with
        | .ok res => res.items = some s.length
        | .error _ => (DatabaseQueryResult.select_columns s r columns).1 = s)
    ∧ (rowsSeen (DatabaseQueryResult.applyFn s r function args new_col).1 r.items
        = rowsSeen s r.items
      ∧ match (DatabaseQueryResult.applyFn s r function args new_col).2 with
        | .ok res => res.items = some s.length
        | .error _ => (DatabaseQueryResult.applyFn s r function args new_col).1 = s)
    ∧ (rowsSeen (DatabaseQueryResult.fill_empty s r with_data).1 r.items
        = rowsSeen s r.items
      ∧ match (DatabaseQueryResult.fill_empty s r with_data).2 with
        | .ok res => res.items = some s.length
        | .error _ => (DatabaseQueryResult.fill_empty s r with_data).1 = s)
    ∧ (rowsSeen (DatabaseQueryResult.sort s r u).1 r.items = rowsSeen s r.items
      ∧ match (DatabaseQueryResult.sort s r u).2 with
        | .ok res => res.items = some s.length
        | .error _ => (DatabaseQueryResult.sort s r u).1 = s)
    ∧ (rowsSeen (DatabaseQueryResult.join s r other using_).1 r.items
        = rowsSeen s r.items
      ∧ rowsSeen (DatabaseQueryResult.join s r other using_).1 other.items
        = rowsSeen s other.items
      ∧ match (DatabaseQueryResult.join s r other using_).2 with
        | .ok res => res.items = some s.length ∨ res = r
        | .error _ => (DatabaseQueryResult.join s r other using_).1 = s)
    ∧ (rowsSeen (DatabaseQueryResult.filter s r column v ft ie).1 r.items
        = rowsSeen s r.items
      ∧ match (DatabaseQueryResult.filter s r column v ft ie).2 with
        | .ok fr => fr.dqr.items = some s.length ∨ fr.dqr.items = none
        | .error _ => (DatabaseQueryResult.filter s r column v ft ie).1 = s) := by
  refine ⟨?_, ?_, ?_, ?_, ?_, ?_, ?_⟩
  · rcases strip_shape s r keys key with h | ⟨out, h⟩
    · rw [h]
      exact ⟨rfl, rfl⟩
    · rw [h]
      exact ⟨preserve_append s out hr, rfl⟩
  · obtain ⟨out, h⟩ := select_columns_shape s r columns
    rw [h]
    exact ⟨preserve_append s out hr, rfl⟩
  · rcases applyFn_shape s r function args new_col with h | ⟨out, h⟩
    · rw [h]
      exact ⟨rfl, rfl⟩
    · rw [h]
      exact ⟨preserve_append s out hr, rfl⟩
  · obtain ⟨out, h⟩ := fill_empty_shape s r with_data
    rw [h]
    exact ⟨preserve_append s out hr, rfl⟩
  · rcases sort_shape s r u with ⟨e, h⟩ | h
    · rw [h]
      exact ⟨rfl, rfl⟩
    · rw [h]
      exact ⟨preserve_append s [] hr, rfl⟩
  · rcases join_shape s r other using_ with h | ⟨e, h⟩ | ⟨out, h⟩
    · rw [h]
      exact ⟨rfl, rfl, Or.inr rfl⟩
    · rw [h]
      exact ⟨rfl, rfl, rfl⟩
    · rw [h]
      exact ⟨preserve_append s out hr, preserve_append s out ho, Or.inl rfl⟩
  · rcases filter_shape s r column v ft ie with ⟨e, h⟩ | ⟨fr, h, hfr⟩ | ⟨rows, fr, h, hfr⟩
    · rw [h]
      exact ⟨rfl, rfl⟩
    · rw [h]
      exact ⟨rfl, Or.inr hfr⟩
    · rw [h]
      exact ⟨preserve_append s rows hr, Or.inl hfr⟩

/-- Witness for the amended C3 at concrete inputs: a successful `strip`
leaves the receiver's visible rows untouched, and a `fill_empty`
derivation materializes a fresh list object. -/
theorem C3_derivations_immutable_witness :
    rowsSeen (DatabaseQueryResult.strip ([[[(("a"), Val.vint 1)]]] : Store)
        ⟨⟨some [[(("a"), Val.vint 1)]], []⟩, some 0⟩ (some [("a")]) none).1
        (⟨⟨some [[(("a"), Val.vint 1)]], []⟩,
          some 0⟩ : DatabaseQueryResult).items
      = rowsSeen ([[[(("a"), Val.vint 1)]]] : Store)
        (⟨⟨some [[(("a"), Val.vint 1)]], []⟩,
          some 0⟩ : DatabaseQueryResult).items
    ∧ match (DatabaseQueryResult.fill_empty ([[[(("a"), Val.vint 1)]]] : Store)
        ⟨⟨some [[(("a"), Val.vint 1)]], []⟩, some 0⟩ Val.vnull).2 with
      | .ok res => res.items = some 1
      | .error _ =>
        (DatabaseQueryResult.fill_empty ([[[(("a"), Val.vint 1)]]] : Store)
          ⟨⟨some [[(("a"), Val.vint 1)]], []⟩, some 0⟩ Val.vnull).1
        = ([[[(("a"), Val.vint 1)]]] : Store) := by
  have h := C3_derivations_immutable ([[[(("a"), Val.vint 1)]]] : Store)
    ⟨⟨some [[(("a"), Val.vint 1)]], []⟩, some 0⟩
    ⟨⟨some [[(("a"), Val.vint 1)]], []⟩, some 0⟩
    (some [("a")]) none [] (fun _ => Val.vnull) [("a")] none Val.vnull
    (.single ("a")) ("x") ("a") (Val.vint 1) .EQUALS false rfl rfl
  exact ⟨h.1.1, h.2.2.2.1.2⟩

end DynamoDB
